import Mathlib

/-!
# esquare-data-tools: `PDF_consolidation_and_cleanup/merge.go`

A shallow embedding of the case-processing pipeline of `merge.go` and the
properties of its shard allocator, document assembler, metadata recorder and
case orchestrator.

Conventions of the embedding.

* Go `int` is the 64-bit two's-complement integer of the amd64/arm64 targets:
  values are `Int`, and every `+ 1` the source performs on an `int` variable is
  followed by `wrapInt`. Lengths of slices and the `count++` loop over a
  listing are the lengths of the lists, which a slice keeps inside the range.
* Paths are lists of path elements; `joinPath` is `filepath.Join` on elements
  that are plain names (it drops empty elements, as `filepath.Join` does).
* The file system is a tree of `Node`s; the relational store is three lists of
  rows (`input_pdf`, `eam_record`, outcome rows of `file_input`) plus the
  `eam_file` detail rows.
* Calls whose result the program cannot determine (random identifiers, clock,
  digests, store failures) are parameters of the functions that make them.
-/

namespace Merge

/-! ## Machine integers, `strconv.Atoi` and `fmt.Sprintf("%0Nd")` -/

/-- Largest value of a Go `int` (64 bit). -/
def maxInt : Int := 9223372036854775807

/-- Smallest value of a Go `int` (64 bit). -/
def minInt : Int := -9223372036854775808

/-- Two's-complement wrap-around of a mathematical integer into the `int` range. -/
def wrapInt (x : Int) : Int :=
  (x + 9223372036854775808) % 18446744073709551616 - 9223372036854775808

/-- Decimal digits of `n`, most significant first, pushed in front of `acc`;
the first argument bounds the number of digits produced. -/
def digitsAux : Nat → Nat → List Char → List Char
  | 0, _, acc => acc
  | fuel + 1, n, acc =>
    if n < 10 then Char.ofNat (48 + n % 10) :: acc
    else digitsAux fuel (n / 10) (Char.ofNat (48 + n % 10) :: acc)

/-- Decimal representation of a natural number. -/
def decimal (n : Nat) : List Char := digitsAux (n + 1) n []

/-- Go's `fmt.Sprintf("%0<width>d", n)`: decimal digits padded with zeros to
`width` characters, the minus sign of a negative number counting as one of
them. -/
def fmtZeroPad (width : Nat) (n : Int) : String :=
  if n < 0 then
    String.mk ('-' :: (List.replicate (width - 1 - (decimal n.natAbs).length) '0'
      ++ decimal n.natAbs))
  else
    String.mk (List.replicate (width - (decimal n.natAbs).length) '0' ++ decimal n.natAbs)

/-- Reads a run of decimal digits, most significant first, on top of `acc`. -/
def parseDigits : List Char → Nat → Option Nat
  | [], acc => some acc
  | c :: cs, acc =>
    if c.isDigit then parseDigits cs (acc * 10 + (c.toNat - 48)) else none

/-- Go's `strconv.Atoi`: an optional sign, at least one decimal digit, and a
value inside the `int` range; `none` is the error result. -/
def Atoi (s : String) : Option Int :=
  match s.data with
  | [] => none
  | '-' :: ds =>
    if ds.isEmpty then none
    else match parseDigits ds 0 with
      | some u => if u ≤ 9223372036854775808 then some (-(u : Int)) else none
      | none => none
  | '+' :: ds =>
    if ds.isEmpty then none
    else match parseDigits ds 0 with
      | some u => if u ≤ 9223372036854775807 then some (u : Int) else none
      | none => none
  | c :: cs =>
    match parseDigits (c :: cs) 0 with
    | some u => if u ≤ 9223372036854775807 then some (u : Int) else none
    | none => none

/-! ## Paths and the file system -/

/-- A path, as the list of its elements. -/
abbrev Path := List String

/-- Go's `filepath.Join(base, elems...)` on a base path and further elements:
empty elements are dropped. -/
def joinPath (base : Path) (elems : List String) : Path :=
  base ++ elems.filter (fun e => e ≠ "")

/-- What the codecs do with a regular file. -/
inductive FileState
  /-- The call `os.Open` fails. -/
  | noOpen
  /-- The call `image.DecodeConfig` fails (the dimension probe). -/
  | badHeader
  /-- The dimension probe succeeds, `pdf.Image` fails. -/
  | badBody
  /-- A readable image: probe and draw succeed. -/
  | image
  /-- A composite document of that many pages, written by `pdf.WritePdf`. -/
  | pdf (pages : Nat)
  deriving DecidableEq, Repr

/-- A node of the file-system tree. -/
inductive Node
  | file (st : FileState)
  | dir (readable : Bool) (children : List (String × Node))

/-- The error kinds of the file-system calls the program tells apart. -/
inductive IOError
  | notExist
  | notDir
  | permission
  | other
  deriving DecidableEq, Repr

deriving instance DecidableEq for Except

/-- Whether the node is a directory (`entry.IsDir()`). -/
def Node.isDir : Node → Bool
  | .file _ => false
  | .dir _ _ => true

/-- Resolves a path from a node: a missing element is `notExist`, an element
looked up inside a regular file is `notDir`. -/
def walk : Path → Node → Except IOError Node
  | [], n => .ok n
  | _ :: _, .file _ => .error .notDir
  | c :: rest, .dir _ ch =>
    match ch.lookup c with
    | none => .error .notExist
    | some sub => walk rest sub

/-- Go's `os.ReadDir`: names of the entries and whether each is a directory. -/
def readDir (fs : Node) (p : Path) : Except IOError (List (String × Bool)) :=
  match walk p fs with
  | .error e => .error e
  | .ok (.file _) => .error .notDir
  | .ok (.dir false _) => .error .permission
  | .ok (.dir true ch) => .ok (ch.map (fun e => (e.1, e.2.isDir)))

/-- The helper `dirExists` of the source: `os.Stat` succeeds and `IsDir`. -/
def dirExists (fs : Node) (p : Path) : Bool :=
  match walk p fs with
  | .ok (.dir _ _) => true
  | _ => false

/-- Replaces the node stored under the first entry called `name`. -/
def setChild (name : String) (sub : Node) : List (String × Node) → List (String × Node)
  | [] => []
  | e :: es => if name == e.1 then (name, sub) :: es else e :: setChild name sub es

/-- Go's `os.MkdirAll`: every missing element of the path is created as a
directory; an element that is a regular file is an error. -/
def mkdirAll : Path → Node → Except IOError Node
  | [], .file _ => .error .notDir
  | [], .dir r ch => .ok (.dir r ch)
  | _ :: _, .file _ => .error .notDir
  | c :: rest, .dir r ch =>
    match ch.lookup c with
    | none =>
      match mkdirAll rest (.dir true []) with
      | .ok sub => .ok (.dir r (ch ++ [(c, sub)]))
      | .error e => .error e
    | some old =>
      match mkdirAll rest old with
      | .ok sub => .ok (.dir r (setChild c sub ch))
      | .error e => .error e

/-! ## Configuration and shard state -/

/-- The fields of `Config` the pipeline reads. -/
structure Config where
  /-- Field `cfg.File.JPGRoot`. -/
  JPGRoot : Path
  /-- Field `cfg.File.PDFRoot`. -/
  PDFRoot : Path
  /-- Field `cfg.File.JPGBackupRoot`. -/
  JPGBackupRoot : Path
  /-- Field `cfg.File.JPGAction`. -/
  JPGAction : String
  /-- Field `cfg.Folders.MaxPerDir`. -/
  MaxPerDir : Int

/-- The shard state `GlobalState` (the mutex is not part of the value). -/
structure GlobalState where
  currentSliceDir : String
  folderCount : Int
  deriving DecidableEq, Repr

/-- Source `incrementDir`: the next shard name; a name that does not parse is
returned unchanged. -/
def incrementDir (dir : String) : String :=
  match Atoi dir with
  | none => dir
  | some num => fmtZeroPad 5 (wrapInt (num + 1))

/-- Source `allocateStoragePath`: the granted path, the shard name, the error
(always nil) and the new shard state. -/
def allocateStoragePath (cfg : Config) (g : GlobalState) (recordID : String) :
    (Path × String × Option IOError) × GlobalState :=
  let g1 : GlobalState :=
    if g.folderCount ≥ cfg.MaxPerDir then
      { currentSliceDir := incrementDir g.currentSliceDir, folderCount := 0 }
    else g
  let sliceID := g1.currentSliceDir
  let p := joinPath cfg.PDFRoot [sliceID, "source", recordID]
  ((p, sliceID, none), { g1 with folderCount := wrapInt (g1.folderCount + 1) })

/-- The errors `initStorageState` returns. -/
inductive InitError
  /-- Message "读取 PDF 根目录失败". -/
  | readRoot (e : IOError)
  /-- Message "读取 source 目录失败". -/
  | readSource (e : IOError)
  deriving DecidableEq, Repr

/-- The numbers of the numeric-named subdirectories of a listing (`sliceDirs`). -/
def sliceDirs (entries : List (String × Bool)) : List Int :=
  entries.filterMap (fun e => if e.2 then Atoi e.1 else none)

/-- Number of directories in a listing (the `count++` loop). -/
def countDirs (entries : List (String × Bool)) : Int :=
  ((entries.filter (fun e => e.2)).length : Int)

/-- The last step of `initStorageState`: with the largest shard number and the
number of folders found under it, resume that shard or start the next one. -/
def resumeOrAdvance (cfg : Config) (maxDir count : Int) : GlobalState :=
  if count ≥ cfg.MaxPerDir then
    { currentSliceDir := fmtZeroPad 5 (wrapInt (maxDir + 1)), folderCount := 0 }
  else
    { currentSliceDir := fmtZeroPad 5 maxDir, folderCount := count }

/-- Source `initStorageState`: the returned error and the shard state it
leaves, starting from the state `g`. -/
def initStorageState (cfg : Config) (fs : Node) (g : GlobalState) :
    Option InitError × GlobalState :=
  match readDir fs cfg.PDFRoot with
  | .error e => (some (.readRoot e), g)
  | .ok entries =>
    if (sliceDirs entries).length = 0 then
      (none, { currentSliceDir := "00000", folderCount := 0 })
    else
      let maxDir := ((sliceDirs entries).insertionSort (fun a b => a ≤ b)).getLastD 0
      let g1 : GlobalState := { g with currentSliceDir := fmtZeroPad 5 maxDir }
      let sourceDir := joinPath cfg.PDFRoot [g1.currentSliceDir, "source"]
      match readDir fs sourceDir with
      | .ok sourceEntries => (none, resumeOrAdvance cfg maxDir (countDirs sourceEntries))
      | .error .notExist => (none, resumeOrAdvance cfg maxDir (countDirs []))
      | .error e => (some (.readSource e), g1)

/-- The shard state after a sequence of `allocateStoragePath` calls. -/
def allocSeq (cfg : Config) (g : GlobalState) (recordIDs : List String) : GlobalState :=
  recordIDs.foldl (fun st id => (allocateStoragePath cfg st id).2) g

/-! ## File-system calls of the pipeline -/

/-- Removes the entries called `name`. -/
def dropChild (name : String) : List (String × Node) → List (String × Node)
  | [] => []
  | e :: es => if name == e.1 then dropChild name es else e :: dropChild name es

/-- The effect of a successful `os.RemoveAll`: the node at the path and all it
contains are gone; a path that does not resolve is left as it is. -/
def removeAll : Path → Node → Node
  | [], n => n
  | _ :: _, .file st => .file st
  | c :: rest, .dir r ch =>
    match rest with
    | [] => .dir r (dropChild c ch)
    | _ :: _ =>
      match ch.lookup c with
      | none => .dir r ch
      | some sub => .dir r (setChild c (removeAll rest sub) ch)

/-- Stores a node at a path whose parent directory exists, replacing what is
there. -/
def putNode : Path → Node → Node → Except IOError Node
  | [], _, _ => .error .other
  | _ :: _, _, .file _ => .error .notDir
  | c :: rest, new, .dir r ch =>
    match rest with
    | [] =>
      match ch.lookup c with
      | none => .ok (.dir r (ch ++ [(c, new)]))
      | some _ => .ok (.dir r (setChild c new ch))
    | _ :: _ =>
      match ch.lookup c with
      | none => .error .notExist
      | some sub =>
        match putNode rest new sub with
        | .ok sub1 => .ok (.dir r (setChild c sub1 ch))
        | .error e => .error e

/-- Writing a regular file (`pdf.WritePdf`): the parent must exist and the
target must not be a directory. -/
def writeFile (p : Path) (st : FileState) (fs : Node) : Except IOError Node :=
  match walk p fs with
  | .ok (.dir _ _) => .error .other
  | _ => putNode p (.file st) fs

/-- Go's `os.Rename` of a directory tree: the source must exist, the target
must be absent or an empty directory. -/
def rename (src dst : Path) (fs : Node) : Except IOError Node :=
  match walk src fs with
  | .error e => .error e
  | .ok sub =>
    match walk dst (removeAll src fs) with
    | .error .notExist => putNode dst sub (removeAll src fs)
    | .ok (.dir _ []) => putNode dst sub (removeAll src fs)
    | .ok _ => .error .other
    | .error e => .error e

/-! ## The relational store -/

/-- Row of the work list `file_input`, as `fetchPendingCases` scans it. -/
structure CaseInput where
  FileID : String
  FileAjdh : String
  ProcessType : Int
  MoveJPG : Int
  FileSliceImg : Path
  deriving DecidableEq, Repr

/-- Case detail, as `fetchCaseDetails` scans it from `eam_file`. -/
structure CaseDetail where
  FileID : String
  FileAjdh : String
  FileSProject : String
  FileProject : String
  FileSliceImg : Path
  deriving DecidableEq, Repr

/-- Row of `eam_file`; `file_slice_image` may be NULL. -/
structure EAMFileRow where
  file_id : String
  file_ajdh : String
  file_sproject : String
  file_project : String
  file_slice_image : Option Path
  deriving DecidableEq, Repr

/-- Row of the table `cfg.Database.TableInputPDF`, the columns `cleanupPDFRecords`
selects. -/
structure InputPDFRow where
  record_id : String
  record_path : Path
  record_file : String
  deriving DecidableEq, Repr

/-- Row of `eam_record`: the columns `insertEAMRecord` computes. The columns it
fills with constants are the same in every inserted row and are left out. -/
structure EAMRecord where
  record_id : String
  record_pdf_size : Int
  record_wj_xh : Option Int
  record_wjdh : String
  record_wjtm : String
  record_fz : String
  record_pdf_page : Int
  record_sl : Int
  record_slice_id : String
  record_file : String
  record_sproject : String
  record_project : String
  record_md5 : String
  record_sm3 : String
  record_isinside : Int
  deriving DecidableEq, Repr

/-- The errors the pipeline passes around. -/
inductive Error
  /-- Error of a file-system call. -/
  | fs (e : IOError)
  /-- Error of a store statement (query, scan or exec). -/
  | store
  /-- Message "案卷 %s 文件夹 %s 无 JPG/PNG，跳过". -/
  | noImages (caseID : String) (folder : Path)
  /-- Message "写入 PDF 失败: %s". -/
  | drawFailed (img : Path)
  /-- Error of `pdf.WritePdf`, `os.ReadFile` or `os.Stat` on the document. -/
  | document
  /-- Message "计算相对路径失败". -/
  | relPath
  /-- Message "创建目录失败". -/
  | mkdirBackup (e : IOError)
  /-- Message "未知的 JPG 操作类型: %s". -/
  | unknownAction (action : String)
  deriving DecidableEq, Repr

/-- The panics of `processCase`, by the message they carry. -/
inductive Panic
  /-- Message "根据输入案卷表查询案卷详细信息出错". -/
  | detail (e : Error)
  /-- Message "清理 PDF 失败". -/
  | cleanup (e : Error)
  /-- Message "合成外部 PDF 失败". -/
  | outer (e : Error)
  /-- Message "合成内部 PDF 失败". -/
  | inner (e : Error)
  /-- Message "JPG 处理失败". -/
  | jpg (e : Error)
  /-- Message "严重错误: JPG 已处理但状态更新失败". -/
  | severe (e : Error)
  /-- Message "更新 file_input 状态失败". -/
  | status (e : Error)
  deriving DecidableEq, Repr

/-- Outcome columns of a `file_input` row. -/
structure FileInputRow where
  file_id : String
  outcome : Int
  fail_reason : Option Panic
  deriving DecidableEq, Repr

/-- Everything the pipeline reads and writes: the file system, the shard
state `globalState`, the counter `processed` and the four tables. -/
structure World where
  fs : Node
  globalState : GlobalState
  processed : Int
  inputPDF : List InputPDFRow
  eamRecord : List EAMRecord
  fileInput : List FileInputRow
  eamFile : List EAMFileRow

/-- What one `mergeAndStorePDF` call gets from outside the program. -/
structure MergeEnv where
  /-- Result of `generateUUID`. -/
  recordID : String
  /-- Value of `time.Now()` in the layout of the annotation. -/
  now : String
  /-- MD5 digest of the written document. -/
  md5Str : String
  /-- SM3 digest of the written document. -/
  sm3Str : String
  /-- Size of the written document. -/
  pdfSize : Int
  /-- The call `pdf.WritePdf` fails. -/
  writePdfFails : Bool
  /-- The call `os.ReadFile` of the document fails. -/
  readFileFails : Bool
  /-- The call `os.Stat` of the document fails. -/
  statFails : Bool
  /-- The `SELECT MAX(record_wj_xh)` query fails. -/
  seqQueryFails : Bool
  /-- The `INSERT` fails. -/
  insertFails : Bool

/-- What one `processCase` call gets from outside the program. -/
structure Env where
  /-- The query of `fetchCaseDetails` fails. -/
  detailQueryFails : Bool
  /-- The query of `cleanupPDFRecords` fails. -/
  cleanupQueryFails : Bool
  /-- The `DELETE` of `cleanupPDFRecords` fails. -/
  cleanupDeleteFails : Bool
  /-- The error `os.RemoveAll` returns for a path, if any. -/
  removeAllErr : Path → Option IOError
  /-- Outside input of the outer-zone assembly. -/
  outer : MergeEnv
  /-- Outside input of the inner-zone assembly. -/
  inner : MergeEnv
  /-- The `UPDATE ... SET outcome = 2` fails. -/
  updateOutcomeFails : Bool
  /-- The `UPDATE ... SET file_slice_image = NULL` fails. -/
  clearSliceFails : Bool
  /-- The `UPDATE ... SET outcome = 3` fails. -/
  markFailedFails : Bool

/-! ## Document assembler -/

/-- Go's `filepath.Ext` on a file name: the suffix from the last dot on, empty
without a dot. -/
def extChars : List Char → List Char
  | [] => []
  | c :: cs =>
    match extChars cs with
    | [] => if c = '.' then c :: cs else []
    | e :: es => e :: es

/-- The test `ext == ".jpg" || ext == ".jpeg"` on the lower-cased extension. -/
def isImageName (name : String) : Bool :=
  let ext := String.mk ((extChars name.data).map Char.toLower)
  ext == ".jpg" || ext == ".jpeg"

/-- The list `imgs` collected from a listing, before sorting. -/
def collectImages (files : List (String × Bool)) : List String :=
  (files.filter (fun f => !f.2 && isImageName f.1)).map (fun f => f.1)

/-- Byte-wise `<` on strings, the order of `sort.Strings`. -/
def bytesLess : List Char → List Char → Bool
  | [], [] => false
  | [], _ :: _ => true
  | _ :: _, [] => false
  | a :: as, b :: bs =>
    if a.toNat < b.toNat then true
    else if b.toNat < a.toNat then false
    else bytesLess as bs

/-- Insertion of a name into a sorted list of names. -/
def insertName (x : String) : List String → List String
  | [] => [x]
  | y :: ys => if bytesLess y.data x.data then y :: insertName x ys else x :: y :: ys

/-- Go's `sort.Strings`. -/
def sortStrings : List String → List String
  | [] => []
  | x :: xs => insertName x (sortStrings xs)

/-- The page loop of `mergeAndStorePDF`: the number of pages drawn so far and
the damaged list `badJPGs`, or the error that ends the loop. -/
def drawPages (fs : Node) (folderPath : Path) :
    List String → Nat → List String → Except Error (Nat × List String)
  | [], pages, badJPGs => .ok (pages, badJPGs)
  | name :: rest, pages, badJPGs =>
    match walk (joinPath folderPath [name]) fs with
    | .error e => .error (.fs e)
    | .ok (.file .noOpen) => .error (.fs .permission)
    | .ok (.file .badBody) => .error (.drawFailed (joinPath folderPath [name]))
    | .ok (.file .image) => drawPages fs folderPath rest (pages + 1) badJPGs
    | .ok (.file .badHeader) => drawPages fs folderPath rest pages (badJPGs ++ [name])
    | .ok (.file (.pdf _)) => drawPages fs folderPath rest pages (badJPGs ++ [name])
    | .ok (.dir _ _) => drawPages fs folderPath rest pages (badJPGs ++ [name])

/-- Value of `SELECT MAX(...)` over the non-NULL values of a column: NULL
(`none`) without any. -/
def sqlMax : List Int → Option Int
  | [] => none
  | x :: xs =>
    match sqlMax xs with
    | none => some x
    | some m => some (max x m)

/-- Go's `strings.Join`. -/
def joinStrings (sep : String) : List String → String
  | [] => ""
  | [x] => x
  | x :: y :: rest => x ++ sep ++ joinStrings sep (y :: rest)

/-- Source `insertEAMRecord`. The parameter the source calls `storagePath`
receives the shard name from its only caller. -/
def insertEAMRecord (env : MergeEnv) (recordID : String) (detail : CaseDetail)
    (storagePath caseID : String) (isInside : Int) (md5Str sm3Str : String)
    (pageCount pdfSize : Int) (illustration : List String) (w : World) :
    Option Error × World :=
  if env.seqQueryFails then (some .store, w)
  else
    let maxSeq := sqlMax ((w.eamRecord.filter (fun r => r.record_file = caseID)).filterMap
      (fun r => r.record_wj_xh))
    let nextSeq : Int :=
      match maxSeq with
      | none => 1
      | some m => wrapInt (m + 1)
    let seqStr := fmtZeroPad 3 nextSeq
    let wjdh := detail.FileAjdh ++ "-" ++ seqStr
    let wjtm := if isInside = 2 then "案卷合成文件（内部）" else "案卷合成文件（外部）"
    let fz :=
      if illustration.length ≠ 0 then
        "PDF文件合成时间：" ++ env.now ++ ",图片路径：" ++ storagePath ++ ",存在损坏图片："
          ++ joinStrings ";" illustration
      else "PDF文件合成时间：" ++ env.now ++ ",图片路径：" ++ storagePath
    if env.insertFails then (some .store, w)
    else
      let row : EAMRecord :=
        { record_id := recordID
          record_pdf_size := pdfSize
          record_wj_xh := some nextSeq
          record_wjdh := wjdh
          record_wjtm := wjtm
          record_fz := fz
          record_pdf_page := pageCount
          record_sl := pageCount
          record_slice_id := storagePath
          record_file := caseID
          record_sproject := detail.FileSProject
          record_project := detail.FileProject
          record_md5 := md5Str
          record_sm3 := sm3Str
          record_isinside := isInside }
      (none, { w with eamRecord := w.eamRecord ++ [row] })

/-- Source `mergeAndStorePDF`: the returned error and image count, and the
world it leaves. -/
def mergeAndStorePDF (cfg : Config) (env : MergeEnv) (caseID : String) (detail : CaseDetail)
    (folderPath : Path) (isInside : Int) (w : World) : (Option Error × Int) × World :=
  match readDir w.fs folderPath with
  | .error e => ((some (.fs e), 0), w)
  | .ok files =>
    let imgs := collectImages files
    if imgs.length = 0 then ((some (.noImages caseID folderPath), 0), w)
    else
      let imgs := sortStrings imgs
      let recordID := env.recordID
      match allocateStoragePath cfg w.globalState recordID with
      | ((_, _, some e), g1) => ((some (.fs e), (imgs.length : Int)), { w with globalState := g1 })
      | ((storagePath, sliceID, none), g1) =>
        let w1 : World := { w with globalState := g1 }
        match mkdirAll storagePath w1.fs with
        | .error e => ((some (.fs e), (imgs.length : Int)), w1)
        | .ok fs2 =>
          let w2 : World := { w1 with fs := fs2 }
          match drawPages w2.fs folderPath imgs 0 [] with
          | .error e => ((some e, (imgs.length : Int)), w2)
          | .ok (pages, badJPGs) =>
            let pdfFile := joinPath storagePath [recordID ++ ".pdf"]
            if env.writePdfFails then ((some .document, (imgs.length : Int)), w2)
            else
              match writeFile pdfFile (.pdf pages) w2.fs with
              | .error e => ((some (.fs e), (imgs.length : Int)), w2)
              | .ok fs3 =>
                let w3 : World := { w2 with fs := fs3 }
                if env.readFileFails then ((some .document, (imgs.length : Int)), w3)
                else
                  let pageCount : Int := (imgs.length : Int)
                  if env.statFails then ((some .document, (imgs.length : Int)), w3)
                  else
                    let r := insertEAMRecord env recordID detail sliceID caseID isInside
                      env.md5Str env.sm3Str pageCount env.pdfSize badJPGs w3
                    ((r.1, (imgs.length : Int)), r.2)

/-! ## Metadata recorder: cleanup -/

/-- The removal loop of `cleanupPDFRecords`: stops at the first error that is
not "does not exist". -/
def removePaths (removeAllErr : Path → Option IOError) : List Path → Node → Option IOError × Node
  | [], fs => (none, fs)
  | p :: rest, fs =>
    match removeAllErr p with
    | none => removePaths removeAllErr rest (removeAll p fs)
    | some .notExist => removePaths removeAllErr rest fs
    | some e => (some e, fs)

/-- Source `cleanupPDFRecords`. -/
def cleanupPDFRecords (env : Env) (caseID : String) (w : World) : Option Error × World :=
  if env.cleanupQueryFails then (some .store, w)
  else
    let rows := w.inputPDF.filter (fun r => r.record_file = caseID)
    let ids := rows.map (fun r => r.record_id)
    let paths := rows.map (fun r => r.record_path)
    if ids.length = 0 then (none, w)
    else
      match removePaths env.removeAllErr paths w.fs with
      | (some e, fs1) => (some (.fs e), { w with fs := fs1 })
      | (none, fs1) =>
        if env.cleanupDeleteFails then (some .store, { w with fs := fs1 })
        else
          let kept := w.eamRecord.filter (fun r => r.record_id ∉ ids)
          (none, { w with fs := fs1, eamRecord := kept })

/-! ## Case orchestrator -/

/-- The scan loop of `fetchCaseDetails`: a NULL column is a scan error, a later
row replaces an earlier one with the same key. -/
def scanDetails : List EAMFileRow → List (String × CaseDetail) →
    Except Error (List (String × CaseDetail))
  | [], m => .ok m
  | r :: rs, m =>
    match r.file_slice_image with
    | none => .error .store
    | some img =>
      let d : CaseDetail := ⟨r.file_id, r.file_ajdh, r.file_sproject, r.file_project, img⟩
      scanDetails rs ((r.file_id, d) :: m)

/-- Source `fetchCaseDetails`; the map is a list looked up from its front. -/
def fetchCaseDetails (env : Env) (ids : List String) (w : World) :
    Except Error (List (String × CaseDetail)) :=
  if env.detailQueryFails then .error .store
  else scanDetails (w.eamFile.filter (fun r => r.file_id ∈ ids)) []

/-- Go's `filepath.Rel` for a target below the base: the elements after the
base. A target outside the base is reported as an error here; `handleJPGs` is
only called with a target built by joining elements onto the base. -/
def relPath (base target : Path) : Option Path :=
  if base.isPrefixOf target then some (target.drop base.length) else none

/-- Source `handleJPGs`. -/
def handleJPGs (cfg : Config) (env : Env) (jpgPath : Path) (fs : Node) : Option Error × Node :=
  let action := String.mk (cfg.JPGAction.data.map Char.toLower)
  if action = "move" then
    match relPath cfg.JPGRoot jpgPath with
    | none => (some .relPath, fs)
    | some rel =>
      let dest := cfg.JPGBackupRoot ++ rel
      match mkdirAll dest.dropLast fs with
      | .error e => (some (.mkdirBackup e), fs)
      | .ok fs1 =>
        match rename jpgPath dest fs1 with
        | .error e => (some (.fs e), fs1)
        | .ok fs2 => (none, fs2)
  else if action = "delete" then
    match env.removeAllErr jpgPath with
    | some e => (some (.fs e), fs)
    | none => (none, removeAll jpgPath fs)
  else if action = "keep" then (none, fs)
  else (some (.unknownAction cfg.JPGAction), fs)

/-- The statement `UPDATE file_input SET outcome = 2 WHERE file_id = ?`. -/
def updateOutcome (env : Env) (caseID : String) (w : World) : Option Error × World :=
  if env.updateOutcomeFails then (some .store, w)
  else
    let rows := w.fileInput.map (fun r => if r.file_id = caseID then { r with outcome := 2 } else r)
    (none, { w with fileInput := rows })

/-- The statement `UPDATE eam_file SET file_slice_image = NULL WHERE file_id = ?`. -/
def clearSliceImage (env : Env) (caseID : String) (w : World) : Option Error × World :=
  if env.clearSliceFails then (some .store, w)
  else
    let rows := w.eamFile.map
      (fun r => if r.file_id = caseID then { r with file_slice_image := none } else r)
    (none, { w with eamFile := rows })

/-- Source `markCaseSuccess`: with `removeJPG` the variable `err` is assigned
by the first statement and again by the second. -/
def markCaseSuccess (env : Env) (caseID : String) (removeJPG : Bool) (w : World) :
    Option Error × World :=
  if removeJPG then
    let r1 := updateOutcome env caseID w
    let r2 := clearSliceImage env caseID r1.2
    (r2.1, r2.2)
  else
    updateOutcome env caseID w

/-- Source `markCaseFailed`: an error of the statement is only logged. -/
def markCaseFailed (env : Env) (caseID : String) (reason : Panic) (w : World) : World :=
  if env.markFailedFails then w
  else
    let rows := w.fileInput.map
      (fun r => if r.file_id = caseID then { r with outcome := 3, fail_reason := some reason }
        else r)
    { w with fileInput := rows }

/-- The detail of a case that has no row in `eam_file`: Go's zero value. -/
def zeroDetail : CaseDetail :=
  { FileID := "", FileAjdh := "", FileSProject := "", FileProject := "", FileSliceImg := [] }

/-- The image folder of a case: `filepath.Join(cfg.File.JPGRoot,
detail.FileSliceImg, c.FileID)`. -/
def jpgPathOf (cfg : Config) (detail : CaseDetail) (c : CaseInput) : Path :=
  joinPath cfg.JPGRoot (detail.FileSliceImg ++ [c.FileID])

/-- The assembling step of `processCase` (the `if c.ProcessType == 2` block):
the panic it raises, if any, and the world it leaves. -/
def assembleZones (cfg : Config) (env : Env) (c : CaseInput) (detail : CaseDetail)
    (jpgPath : Path) (w : World) : Option Panic × World :=
  if c.ProcessType = 2 then
    let inner := joinPath jpgPath ["内部"]
    if dirExists w.fs inner then
      let r1 := mergeAndStorePDF cfg env.outer c.FileID detail jpgPath 1 w
      match r1.1.1 with
      | some err =>
        if r1.1.2 = 0 then
          let r2 := mergeAndStorePDF cfg env.inner c.FileID detail inner 2 r1.2
          match r2.1.1 with
          | some err2 => (some (.inner err2), r2.2)
          | none => (none, r2.2)
        else (some (.outer err), r1.2)
      | none =>
        let r2 := mergeAndStorePDF cfg env.inner c.FileID detail inner 2 r1.2
        match r2.1.1 with
        | some err2 => (some (.inner err2), r2.2)
        | none => (none, r2.2)
    else
      let r1 := mergeAndStorePDF cfg env.outer c.FileID detail jpgPath 1 w
      match r1.1.1 with
      | some err => (some (.outer err), r1.2)
      | none => (none, r1.2)
  else (none, w)

/-- The finishing step of `processCase` (the `if c.MoveJPG == 1` block). -/
def finishCase (cfg : Config) (env : Env) (c : CaseInput) (jpgPath : Path) (w : World) :
    Option Panic × World :=
  if c.MoveJPG = 1 then
    match handleJPGs cfg env jpgPath w.fs with
    | (some err, fs1) => (some (.jpg err), { w with fs := fs1 })
    | (none, fs1) =>
      match markCaseSuccess env c.FileID true { w with fs := fs1 } with
      | (some err, w2) => (some (.severe err), w2)
      | (none, w2) => (none, w2)
  else
    match markCaseSuccess env c.FileID false w with
    | (some err, w2) => (some (.status err), w2)
    | (none, w2) => (none, w2)

/-- The body of `processCase` up to its normal end or its panic. -/
def processCaseBody (cfg : Config) (env : Env) (c : CaseInput) (w : World) :
    Option Panic × World :=
  match fetchCaseDetails env [c.FileID] w with
  | .error err => (some (.detail err), w)
  | .ok detailsMap =>
    let detail := (detailsMap.lookup c.FileID).getD zeroDetail
    let jpgPath := jpgPathOf cfg detail c
    match cleanupPDFRecords env c.FileID w with
    | (some err, w1) => (some (.cleanup err), w1)
    | (none, w1) =>
      match assembleZones cfg env c detail jpgPath w1 with
      | (some p, w2) => (some p, w2)
      | (none, w2) => finishCase cfg env c jpgPath w2

/-- Source `processCase`: the body, then the deferred function, which records
a recovered panic with `markCaseFailed` and counts the case as processed. -/
def processCase (cfg : Config) (env : Env) (c : CaseInput) (w : World) : World :=
  let r := processCaseBody cfg env c w
  let w1 :=
    match r.1 with
    | some p => markCaseFailed env c.FileID p r.2
    | none => r.2
  { w1 with processed := wrapInt (w1.processed + 1) }

/-! ## Notions the properties are stated with -/

/-- The shard names the calls of a run of `allocateStoragePath` return, in
order. -/
def grantedNames (cfg : Config) : GlobalState → List String → List String
  | _, [] => []
  | g, recordID :: rest =>
    (allocateStoragePath cfg g recordID).1.2.1
      :: grantedNames cfg (allocateStoragePath cfg g recordID).2 rest

/-- The number of folders `initStorageState` observes under the shard named
`s`: its variable `count` for the shard of the largest number, whose `source`
directory is the only one it lists, and 0 for every other name. -/
def observedFolders (cfg : Config) (fs : Node) (s : String) : Int :=
  match readDir fs cfg.PDFRoot with
  | .error _ => 0
  | .ok entries =>
    if (sliceDirs entries).length = 0 then 0
    else if s = fmtZeroPad 5 (((sliceDirs entries).insertionSort (fun a b => a ≤ b)).getLastD 0)
    then
      match readDir fs (joinPath cfg.PDFRoot
        [fmtZeroPad 5 (((sliceDirs entries).insertionSort (fun a b => a ≤ b)).getLastD 0),
          "source"]) with
      | .ok sourceEntries => countDirs sourceEntries
      | .error _ => 0
    else 0

/-- The number `c` of subdirectories under `<m>/source`, the shard number `m`
written with `%05d`: an absent directory counts 0, and there is no number when
the directory exists and cannot be read. -/
def sourceFolders (cfg : Config) (fs : Node) (m : Int) : Option Int :=
  match readDir fs (joinPath cfg.PDFRoot [fmtZeroPad 5 m, "source"]) with
  | .ok sourceEntries => some (countDirs sourceEntries)
  | .error .notExist => some 0
  | .error _ => none

/-- A run of allocations each of whose granted paths is created on disk: the
path does not exist before and `os.MkdirAll` of it succeeds. The result is the
file system and shard state after the run, `none` when a path was not created. -/
def allocRun (cfg : Config) : List String → Node × GlobalState → Option (Node × GlobalState)
  | [], st => some st
  | recordID :: rest, st =>
    match walk (allocateStoragePath cfg st.2 recordID).1.1 st.1 with
    | .error .notExist =>
      match mkdirAll (allocateStoragePath cfg st.2 recordID).1.1 st.1 with
      | .ok fs1 => allocRun cfg rest (fs1, (allocateStoragePath cfg st.2 recordID).2)
      | .error _ => none
    | _ => none

/-- The shard state a restart is expected to find: the state before it, or
the next shard with count 0 when the count had reached the bound. -/
def expectedAfterRestart (cfg : Config) (g : GlobalState) : GlobalState :=
  if g.folderCount < cfg.MaxPerDir then g
  else { currentSliceDir := incrementDir g.currentSliceDir, folderCount := 0 }

/-- The number of folders under `source` of the shard directory `s`, seen from
the node of the storage root. -/
def localFolders (b : Node) (s : String) : Option Int :=
  match readDir b [s, "source"] with
  | .ok sourceEntries => some (countDirs sourceEntries)
  | .error .notExist => some 0
  | .error _ => none

/-- Invariant that ties the disk to the shard state during a run with `budget`
allocations left: the shard number `n` bounds every shard number on disk and
stays within the machine integers; the shard is either not yet on disk,
with count 0 and as a restart finds it, or on disk with the count of its
folders. -/
def RestartInv (cfg : Config) (fs : Node) (g : GlobalState) (budget : Nat) : Prop :=
  ∃ (E : List (String × Bool)) (n : Int),
    readDir fs cfg.PDFRoot = .ok E ∧ g.currentSliceDir = fmtZeroPad 5 n ∧
    minInt ≤ n ∧ n + budget ≤ maxInt ∧ (∀ x ∈ sliceDirs E, x ≤ n) ∧
    ((g.folderCount = 0 ∧ n ∉ sliceDirs E ∧
        ∀ g1, initStorageState cfg fs g1 = (none, g)) ∨
      (n ∈ sliceDirs E ∧ sourceFolders cfg fs n = some g.folderCount ∧
        g.folderCount ≤ cfg.MaxPerDir))

/-- The qualifying images of a folder: the image names of its listing, none
when the folder cannot be listed. -/
def imagesIn (fs : Node) (folderPath : Path) : List String :=
  match readDir fs folderPath with
  | .ok files => collectImages files
  | .error _ => []

/-- The non-NULL sequence numbers `record_wj_xh` of the records of a case. -/
def caseSeqs (w : World) (caseID : String) : List Int :=
  (w.eamRecord.filter (fun r => r.record_file = caseID)).filterMap (fun r => r.record_wj_xh)

/-- The number of pages of the composite document stored at a path, if one is
stored there. -/
def pdfPagesAt (fs : Node) (p : Path) : Option Nat :=
  match walk p fs with
  | .ok (.file (.pdf pages)) => some pages
  | _ => none

/-! ## Example inputs -/

/-- A storage root that is an empty directory. -/
def emptyRootFS : Node := .dir true [("pdf", .dir true [])]

/-- A configuration whose storage root is `pdf`, with the given bound. -/
def cfgBound (bound : Int) : Config :=
  { JPGRoot := ["jpg"], PDFRoot := ["pdf"], JPGBackupRoot := ["bak"], JPGAction := "keep",
    MaxPerDir := bound }

/-- A storage root holding the shard named by the largest machine integer with
one folder in it. -/
def fullMaxShardFS : Node :=
  .dir true [("pdf", .dir true [("9223372036854775807",
    .dir true [("source", .dir true [("u0", .dir true [])])])])]

/-- A storage root with the shards "00003" and "7" and a directory that is no
shard. -/
def twoShardFS : Node :=
  .dir true [("pdf", .dir true [
    ("00003", .dir true [("source", .dir true [("a", .dir true []), ("x.txt", .file .image)])]),
    ("7", .dir true []),
    ("notes", .dir true [])])]

/-- A storage root whose only shard "00003" holds three folders. -/
def overfullShardFS : Node :=
  .dir true [("pdf", .dir true [("00003", .dir true [("source", .dir true [
    ("a", .dir true []), ("b", .dir true []), ("c", .dir true [])])])])]

/-- A storage root whose only shard directory is named "7", not in the `%05d`
form, and holds three folders. -/
def unpaddedShardFS : Node :=
  .dir true [("pdf", .dir true [("7", .dir true [("source", .dir true [
    ("a", .dir true []), ("b", .dir true []), ("c", .dir true [])])])])]

/-- A storage root whose shard "00003" has a regular file called `source`. -/
def sourceIsFileFS : Node :=
  .dir true [("pdf", .dir true [("00003", .dir true [("source", .file .image)])])]

/-- The empty storage root after three folders were created with bound 2: two
in shard "00000", one in shard "00001". -/
def threeFoldersFS : Node :=
  .dir true [("pdf", .dir true [
    ("00000", .dir true [("source", .dir true [("a", .dir true []), ("b", .dir true [])])]),
    ("00001", .dir true [("source", .dir true [("c", .dir true [])])])])]

/-- Outside input of an assembly in which nothing fails. -/
def quietMerge (recordID : String) : MergeEnv :=
  { recordID := recordID, now := "2024-01-01 00:00:00", md5Str := "md5", sm3Str := "sm3",
    pdfSize := 100, writePdfFails := false, readFileFails := false, statFails := false,
    seqQueryFails := false, insertFails := false }

/-- Outside input of a case in which nothing fails; the two assemblies get the
given record identifiers. -/
def quietEnv (outerID innerID : String) : Env :=
  { detailQueryFails := false, cleanupQueryFails := false, cleanupDeleteFails := false,
    removeAllErr := fun _ => none, outer := quietMerge outerID, inner := quietMerge innerID,
    updateOutcomeFails := false, clearSliceFails := false, markFailedFails := false }

/-- Outside input of a case in which only the first statement of
`markCaseSuccess`, the outcome update, fails. -/
def outcomeUpdateFailsEnv : Env :=
  { quietEnv "u1" "u2" with updateOutcomeFails := true }

/-- The detail of the case "c1". -/
def detailC1 : CaseDetail :=
  { FileID := "c1", FileAjdh := "AJ1", FileSProject := "sp", FileProject := "p",
    FileSliceImg := ["s1"] }

/-- A world around a file system: empty tables but for the case "c1", which is
pending, and the allocator at its first shard. -/
def worldOf (fs : Node) : World :=
  { fs := fs, globalState := ⟨"00000", 0⟩, processed := 0, inputPDF := [], eamRecord := [],
    fileInput := [⟨"c1", 1, none⟩], eamFile := [⟨"c1", "AJ1", "sp", "p", some ["s1"]⟩] }

/-- The image folder of "c1" holds two images, the first of them damaged. -/
def damagedFS : Node :=
  .dir true [("pdf", .dir true []),
    ("jpg", .dir true [("s1", .dir true [("c1", .dir true [
      ("a.jpg", .file .badHeader), ("b.jpg", .file .image)])])])]

/-- The image folder of "c1" holds one image and no inner sub-area. -/
def oneImageFS : Node :=
  .dir true [("pdf", .dir true []),
    ("jpg", .dir true [("s1", .dir true [("c1", .dir true [("a.jpg", .file .image)])])])]

/-- The image folder of "c1" holds text files only. -/
def noImageFS : Node :=
  .dir true [("pdf", .dir true []),
    ("jpg", .dir true [("s1", .dir true [("c1", .dir true [
      ("readme.txt", .file .badHeader), ("scan.png", .file .image)])])])]

/-- The case "c1" without assembly and with relocation. -/
def caseRelocate : CaseInput :=
  { FileID := "c1", FileAjdh := "AJ1", ProcessType := 0, MoveJPG := 1, FileSliceImg := ["s1"] }

/-- A record of the case "c1" whose sequence number is the largest machine
integer. -/
def lastSeqRecord : EAMRecord :=
  { record_id := "r0", record_pdf_size := 1, record_wj_xh := some 9223372036854775807,
    record_wjdh := "AJ1-9223372036854775807", record_wjtm := "", record_fz := "",
    record_pdf_page := 1, record_sl := 1, record_slice_id := "00000", record_file := "c1",
    record_sproject := "sp", record_project := "p", record_md5 := "", record_sm3 := "",
    record_isinside := 1 }

/-- The image folder of "c1" holds two PNG images and nothing else. -/
def pngOnlyFS : Node :=
  .dir true [("pdf", .dir true []),
    ("jpg", .dir true [("s1", .dir true [("c1", .dir true [
      ("page1.png", .file .image), ("PAGE2.PNG", .file .image)])])])]

/-! # Theorems -/

/-! ## Numbers and names -/

theorem digit_char (d : Nat) (h : d < 10) :
    (Char.ofNat (48 + d)).isDigit = true ∧ (Char.ofNat (48 + d)).toNat - 48 = d ∧
      Char.ofNat (48 + d) ≠ '-' ∧ Char.ofNat (48 + d) ≠ '+' := by
  interval_cases d <;> decide

theorem parseDigits_digitsAux (fuel : Nat) : ∀ (n : Nat) (acc : List Char), n < fuel →
    parseDigits (digitsAux fuel n acc) 0 = parseDigits acc n := by
  induction fuel with
  | zero => intro n acc h; omega
  | succ fuel ih =>
    intro n acc h
    have hd := digit_char (n % 10) (Nat.mod_lt _ (by norm_num))
    by_cases hn : n < 10
    · simp only [digitsAux, hn, if_true, parseDigits, hd.1, hd.2.1]
      rw [Nat.mod_eq_of_lt hn]; simp
    · simp only [digitsAux, hn, if_false]
      rw [ih (n / 10) _ (by omega)]
      simp only [parseDigits, hd.1, hd.2.1, if_true]
      congr 1; omega

theorem parseDigits_decimal (n : Nat) : parseDigits (decimal n) 0 = some n := by
  unfold decimal
  rw [parseDigits_digitsAux _ _ _ (Nat.lt_succ_self n)]; rfl

theorem parseDigits_zeros (k : Nat) (l : List Char) :
    parseDigits (List.replicate k '0' ++ l) 0 = parseDigits l 0 := by
  induction k with
  | zero => simp
  | succ k ih =>
    simp only [List.replicate_succ, List.cons_append, parseDigits]
    have : ('0' : Char).isDigit = true := by decide
    simp [this, ih]

theorem digitsAux_head (fuel : Nat) : ∀ (n : Nat) (acc : List Char), 0 < fuel →
    ∃ c cs, digitsAux fuel n acc = c :: cs ∧ c ≠ '-' ∧ c ≠ '+' := by
  induction fuel with
  | zero => intro n acc h; omega
  | succ fuel ih =>
    intro n acc _
    have hd := digit_char (n % 10) (Nat.mod_lt _ (by norm_num))
    by_cases hn : n < 10
    · exact ⟨_, acc, by simp [digitsAux, hn], hd.2.2.1, hd.2.2.2⟩
    · simp only [digitsAux, hn, if_false]
      cases fuel with
      | zero => exact ⟨_, acc, by simp [digitsAux], hd.2.2.1, hd.2.2.2⟩
      | succ f => exact ih _ _ (Nat.succ_pos f)

theorem padded_head (k n : Nat) :
    ∃ c cs, List.replicate k '0' ++ decimal n = c :: cs ∧ c ≠ '-' ∧ c ≠ '+' := by
  cases k with
  | zero =>
    simpa using digitsAux_head (n + 1) n [] (Nat.succ_pos n)
  | succ k =>
    exact ⟨'0', List.replicate k '0' ++ decimal n, by simp [List.replicate_succ],
      by decide, by decide⟩

/-- Parsing a formatted machine integer gives the integer back. -/
theorem Atoi_fmtZeroPad (w : Nat) (n : Int) (h1 : minInt ≤ n) (h2 : n ≤ maxInt) :
    Atoi (fmtZeroPad w n) = some n := by
  unfold minInt at h1; unfold maxInt at h2
  by_cases hneg : n < 0
  · obtain ⟨c, cs, hcs, _, _⟩ := padded_head (w - 1 - (decimal n.natAbs).length) n.natAbs
    have hp := parseDigits_zeros (w - 1 - (decimal n.natAbs).length) (decimal n.natAbs)
    rw [parseDigits_decimal] at hp
    simp only [fmtZeroPad, hneg, if_true, Atoi]
    rw [hcs] at hp ⊢
    simp only [List.isEmpty_cons, hp]
    have hle : n.natAbs ≤ 9223372036854775808 := by omega
    have hab : -(n.natAbs : Int) = n := by omega
    simp only [hle, if_true, hab]
    rfl
  · obtain ⟨c, cs, hcs, hc1, hc2⟩ := padded_head (w - (decimal n.natAbs).length) n.natAbs
    have hp := parseDigits_zeros (w - (decimal n.natAbs).length) (decimal n.natAbs)
    rw [parseDigits_decimal] at hp
    simp only [fmtZeroPad, hneg, if_false]
    rw [hcs] at hp ⊢
    have : n.natAbs ≤ 9223372036854775807 := by omega
    unfold Atoi
    split
    · simp_all
    · simp_all
    · simp_all
    · rename_i c' cs' _ _ heq
      simp only [List.cons.injEq] at heq
      obtain ⟨rfl, rfl⟩ := heq
      have hab : (n.natAbs : Int) = n := by omega
      simp only [hp, this, if_true, hab]

/-- The function `strconv.Atoi` only returns machine integers. -/
theorem Atoi_range (s : String) (n : Int) (h : Atoi s = some n) : minInt ≤ n ∧ n ≤ maxInt := by
  unfold Atoi at h
  unfold minInt maxInt
  split at h
  · simp at h
  · split at h
    · simp at h
    · split at h
      · split at h
        · simp only [Option.some.injEq] at h; omega
        · simp at h
      · simp at h
  · split at h
    · simp at h
    · split at h
      · split at h
        · simp only [Option.some.injEq] at h; omega
        · simp at h
      · simp at h
  · split at h
    · split at h
      · simp only [Option.some.injEq] at h; omega
      · simp at h
    · simp at h

theorem wrapInt_range (x : Int) : minInt ≤ wrapInt x ∧ wrapInt x ≤ maxInt := by
  unfold wrapInt minInt maxInt; omega

theorem wrapInt_of_range (x : Int) (h1 : minInt ≤ x) (h2 : x ≤ maxInt) : wrapInt x = x := by
  unfold wrapInt; unfold minInt at h1; unfold maxInt at h2; omega

theorem fmtZeroPad_ne_empty (w : Nat) (n : Int) : fmtZeroPad w n ≠ "" := by
  intro h
  have h1 : (fmtZeroPad w n).data = [] := by rw [h]
  unfold fmtZeroPad at h1
  split at h1
  · simp at h1
  · obtain ⟨c, cs, hcs, _, _⟩ := padded_head (w - (decimal n.natAbs).length) n.natAbs
    simp only [hcs] at h1
    exact List.cons_ne_nil _ _ h1

/-! ## Shard allocator -/

theorem sorted_le_getLastD (s : List Int) (hs : s.Sorted (fun a b => a ≤ b)) :
    ∀ d x, x ∈ s → x ≤ s.getLastD d := by
  induction s with
  | nil => intro d x hx; simp at hx
  | cons a t ih =>
    intro d x hx
    rw [List.getLastD_cons]
    have hs' := List.sorted_cons.mp hs
    rcases List.mem_cons.mp hx with rfl | hx
    · cases t with
      | nil => simp
      | cons b u =>
        exact le_trans (hs'.1 b (List.mem_cons_self _ _)) (ih hs'.2 x b (List.mem_cons_self _ _))
    · exact ih hs'.2 a x hx

/-- The last element of the sorted `sliceDirs` is their maximum. -/
theorem maxDir_spec (l : List Int) (hl : l ≠ []) :
    (l.insertionSort (fun a b => a ≤ b)).getLastD 0 ∈ l ∧
      ∀ x ∈ l, x ≤ (l.insertionSort (fun a b => a ≤ b)).getLastD 0 := by
  have hperm := List.perm_insertionSort (fun a b : Int => a ≤ b) l
  have hsorted := List.sorted_insertionSort (fun a b : Int => a ≤ b) l
  constructor
  · have hne : l.insertionSort (fun a b => a ≤ b) ≠ [] := by
      intro h; rw [h] at hperm; exact hl (List.Perm.nil_eq hperm).symm
    have := List.getLastD_mem_cons (l.insertionSort (fun a b => a ≤ b)) 0
    cases hs : l.insertionSort (fun a b => a ≤ b) with
    | nil => exact absurd hs hne
    | cons a t =>
      rw [List.getLastD_cons]
      have h2 := List.getLastD_mem_cons t a
      rw [← hs] at h2
      exact hperm.mem_iff.mp h2
  · intro x hx
    exact sorted_le_getLastD _ hsorted 0 x (hperm.mem_iff.mpr hx)

theorem sliceDirs_range (entries : List (String × Bool)) (x : Int) (hx : x ∈ sliceDirs entries) :
    minInt ≤ x ∧ x ≤ maxInt := by
  unfold sliceDirs at hx
  obtain ⟨e, _, he⟩ := List.mem_filterMap.mp hx
  split at he
  · exact Atoi_range _ _ he
  · simp at he

theorem resumeOrAdvance_state (cfg : Config) (m c : Int) (hm1 : minInt ≤ m) (hm2 : m ≤ maxInt)
    (hc : 0 ≤ c) :
    (∃ n, minInt ≤ n ∧ n ≤ maxInt ∧ (resumeOrAdvance cfg m c).currentSliceDir = fmtZeroPad 5 n) ∧
      0 ≤ (resumeOrAdvance cfg m c).folderCount ∧
      ((resumeOrAdvance cfg m c).folderCount < cfg.MaxPerDir ∨
        (resumeOrAdvance cfg m c).folderCount = 0) := by
  unfold resumeOrAdvance
  split
  · exact ⟨⟨_, (wrapInt_range _).1, (wrapInt_range _).2, rfl⟩, le_refl _, Or.inr rfl⟩
  · rename_i h
    exact ⟨⟨_, hm1, hm2, rfl⟩, hc, Or.inl (lt_of_not_ge h)⟩

theorem countDirs_nonneg (es : List (String × Bool)) : 0 ≤ countDirs es := by
  simp [countDirs]

/-- What a successful `initStorageState` leaves: a name that is a formatted
machine integer and a count that is non-negative and below the bound, or zero. -/
theorem init_state (cfg : Config) (fs : Node) (g0 g : GlobalState)
    (h : initStorageState cfg fs g0 = (none, g)) :
    (∃ n, minInt ≤ n ∧ n ≤ maxInt ∧ g.currentSliceDir = fmtZeroPad 5 n) ∧
      0 ≤ g.folderCount ∧ (g.folderCount < cfg.MaxPerDir ∨ g.folderCount = 0) := by
  unfold initStorageState at h
  split at h
  · simp at h
  · rename_i entries _
    split at h
    · simp only [Prod.mk.injEq, true_and] at h
      subst h
      exact ⟨⟨0, by decide, by decide, by decide⟩, le_refl _, Or.inr rfl⟩
    · rename_i hne
      have hl : sliceDirs entries ≠ [] := by
        intro hh; rw [hh] at hne; simp at hne
      have hm := sliceDirs_range entries _ (maxDir_spec _ hl).1
      simp only at h
      split at h
      · simp only [Prod.mk.injEq, true_and] at h
        subst h
        exact resumeOrAdvance_state cfg _ _ hm.1 hm.2 (countDirs_nonneg _)
      · simp only [Prod.mk.injEq, true_and] at h
        subst h
        exact resumeOrAdvance_state cfg _ _ hm.1 hm.2 (countDirs_nonneg _)
      · simp at h

theorem allocSeq_append (cfg : Config) (g : GlobalState) (ids : List String) (id : String) :
    allocSeq cfg g (ids ++ [id]) = (allocateStoragePath cfg (allocSeq cfg g ids) id).2 := by
  simp [allocSeq, List.foldl_append]

/-- Invariant of the allocator states: the name is a formatted machine integer
and the count is a machine integer that is at most the bound, or at most 1. -/
theorem allocSeq_inv (cfg : Config) (fs : Node) (g0 g : GlobalState)
    (h : initStorageState cfg fs g0 = (none, g)) (ids : List String) :
    (∃ n, minInt ≤ n ∧ n ≤ maxInt ∧ (allocSeq cfg g ids).currentSliceDir = fmtZeroPad 5 n) ∧
      minInt ≤ (allocSeq cfg g ids).folderCount ∧
      ((allocSeq cfg g ids).folderCount ≤ cfg.MaxPerDir ∨ (allocSeq cfg g ids).folderCount ≤ 1) := by
  induction ids using List.reverseRecOn with
  | nil =>
    obtain ⟨h1, h2, h3⟩ := init_state cfg fs g0 g h
    refine ⟨h1, ?_, ?_⟩
    · simp only [allocSeq, List.foldl_nil]; unfold minInt; omega
    · rcases h3 with h3 | h3
      · exact Or.inl (le_of_lt h3)
      · right; simp only [allocSeq, List.foldl_nil]; omega
  | append_singleton ids id ih =>
    rw [allocSeq_append]
    obtain ⟨⟨n, hn1, hn2, hn⟩, hc0, hc⟩ := ih
    generalize allocSeq cfg g ids = s at hn hc0 hc
    unfold allocateStoragePath
    by_cases hroll : s.folderCount ≥ cfg.MaxPerDir
    · simp only [hroll, if_true]
      refine ⟨⟨wrapInt (n + 1), (wrapInt_range _).1, (wrapInt_range _).2, ?_⟩, ?_, Or.inr ?_⟩
      · simp only [incrementDir, hn, Atoi_fmtZeroPad 5 n hn1 hn2]
      · exact (wrapInt_range _).1
      · simp [wrapInt]
    · simp only [hroll, if_false]
      have hlt : s.folderCount < cfg.MaxPerDir := lt_of_not_ge hroll
      refine ⟨⟨n, hn1, hn2, hn⟩, (wrapInt_range _).1, ?_⟩
      unfold minInt at hc0
      unfold wrapInt; left; omega

theorem fmtZeroPad_inj (a b : Int) (ha1 : minInt ≤ a) (ha2 : a ≤ maxInt) (hb1 : minInt ≤ b)
    (hb2 : b ≤ maxInt) (h : fmtZeroPad 5 a = fmtZeroPad 5 b) : a = b := by
  have h1 := Atoi_fmtZeroPad 5 a ha1 ha2
  rw [h, Atoi_fmtZeroPad 5 b hb1 hb2] at h1
  exact (Option.some.inj h1).symm

/-- The grants of a run, by shard name: every granted name is the name of a
number from the current one on; the grants under the current name and the
current count together stay within the bound, and so do the grants under each
later name. -/
theorem grants_bounded (cfg : Config) (hB : 1 ≤ cfg.MaxPerDir) (hBmax : cfg.MaxPerDir ≤ maxInt) :
    ∀ (recordIDs : List String) (g : GlobalState) (n : Int),
      g.currentSliceDir = fmtZeroPad 5 n → minInt ≤ n → n + recordIDs.length ≤ maxInt →
      0 ≤ g.folderCount → g.folderCount ≤ cfg.MaxPerDir →
      (∀ s ∈ grantedNames cfg g recordIDs, ∃ k, n ≤ k ∧ k ≤ maxInt ∧ s = fmtZeroPad 5 k) ∧
      ((grantedNames cfg g recordIDs).count (fmtZeroPad 5 n) : Int) + g.folderCount
        ≤ cfg.MaxPerDir ∧
      (∀ k, n < k → k ≤ maxInt →
        ((grantedNames cfg g recordIDs).count (fmtZeroPad 5 k) : Int) ≤ cfg.MaxPerDir) := by
  intro recordIDs
  induction recordIDs with
  | nil =>
    intro g n _ _ _ _ hc
    refine ⟨by simp [grantedNames], by simpa [grantedNames] using hc, ?_⟩
    intro k _ _; simp [grantedNames]; omega
  | cons id rest ih =>
    intro g n hname hn1 hn2 hc0 hc
    simp only [List.length_cons] at hn2
    push_cast at hn2
    have hnr : n ≤ maxInt := by omega
    have hparse : Atoi g.currentSliceDir = some n := by
      rw [hname]; exact Atoi_fmtZeroPad 5 n hn1 hnr
    by_cases hroll : g.folderCount ≥ cfg.MaxPerDir
    · have hw : wrapInt (n + 1) = n + 1 :=
        wrapInt_of_range _ (by unfold minInt at *; omega) (by omega)
      have h01 : wrapInt (0 + 1) = 1 := by decide
      have hret : (allocateStoragePath cfg g id).1.2.1 = fmtZeroPad 5 (n + 1) := by
        simp only [allocateStoragePath, hroll, if_true, incrementDir, hparse, hw]
      have hst : (allocateStoragePath cfg g id).2 = ⟨fmtZeroPad 5 (n + 1), 1⟩ := by
        simp only [allocateStoragePath, hroll, if_true, incrementDir, hparse, hw, h01]
      obtain ⟨i1, i2, i3⟩ := ih ⟨fmtZeroPad 5 (n + 1), 1⟩ (n + 1) rfl (by omega) (by omega)
        (by norm_num) hB
      have hne : ∀ k, k ≠ n + 1 → minInt ≤ k → k ≤ maxInt →
          fmtZeroPad 5 (n + 1) ≠ fmtZeroPad 5 k := by
        intro k hk hk1 hk2 heq
        exact hk (fmtZeroPad_inj _ _ (by omega) (by omega) hk1 hk2 heq).symm
      have hzero : (grantedNames cfg ⟨fmtZeroPad 5 (n + 1), 1⟩ rest).count (fmtZeroPad 5 n) = 0 := by
        rw [List.count_eq_zero]
        intro hmem
        obtain ⟨k, hk1, hk2, hk⟩ := i1 _ hmem
        have := fmtZeroPad_inj n k hn1 hnr (by omega) hk2 hk
        omega
      simp only [grantedNames, hret, hst]
      refine ⟨?_, ?_, ?_⟩
      · intro s hs
        rcases List.mem_cons.mp hs with rfl | hs
        · exact ⟨n + 1, by omega, by omega, rfl⟩
        · obtain ⟨k, hk1, hk2, hk⟩ := i1 s hs
          exact ⟨k, by omega, hk2, hk⟩
      · rw [List.count_cons_of_ne (hne n (by omega) hn1 hnr).symm, hzero]
        simpa using hc
      · intro k hk hk2
        by_cases hk1 : k = n + 1
        · subst hk1
          rw [List.count_cons_self]
          push_cast
          exact i2
        · rw [List.count_cons_of_ne (hne k hk1 (by omega) hk2).symm]
          exact i3 k (by omega) hk2
    · have hlt : g.folderCount < cfg.MaxPerDir := lt_of_not_ge hroll
      have hwr : wrapInt (g.folderCount + 1) = g.folderCount + 1 :=
        wrapInt_of_range _ (by unfold minInt; omega) (by omega)
      have hret : (allocateStoragePath cfg g id).1.2.1 = fmtZeroPad 5 n := by
        simp only [allocateStoragePath, hroll, if_false, hname]
      have hst : (allocateStoragePath cfg g id).2 = ⟨fmtZeroPad 5 n, g.folderCount + 1⟩ := by
        simp only [allocateStoragePath, hroll, if_false, hname, hwr]
      obtain ⟨i1, i2, i3⟩ := ih ⟨fmtZeroPad 5 n, g.folderCount + 1⟩ n rfl hn1 (by omega)
        (by simp only; omega) (by simp only; omega)
      simp only [grantedNames, hret, hst]
      refine ⟨?_, ?_, ?_⟩
      · intro s hs
        rcases List.mem_cons.mp hs with rfl | hs
        · exact ⟨n, le_refl _, hnr, rfl⟩
        · exact i1 s hs
      · rw [List.count_cons_self]
        push_cast
        simp only at i2
        omega
      · intro k hk hk2
        have hne : fmtZeroPad 5 n ≠ fmtZeroPad 5 k := by
          intro heq
          have := fmtZeroPad_inj n k hn1 hnr (by omega) hk2 heq
          omega
        rw [List.count_cons_of_ne hne.symm]
        exact i3 k hk hk2

/-- For every shard name, the grants of a run under it and the count the
starting state holds for it are together within the bound. -/
theorem grants_per_shard (cfg : Config) (hB : 1 ≤ cfg.MaxPerDir) (hBmax : cfg.MaxPerDir ≤ maxInt)
    (recordIDs : List String) (g : GlobalState) (n : Int)
    (hname : g.currentSliceDir = fmtZeroPad 5 n) (hn1 : minInt ≤ n)
    (hn2 : n + recordIDs.length ≤ maxInt)
    (hc0 : 0 ≤ g.folderCount) (hc : g.folderCount ≤ cfg.MaxPerDir) (s : String) :
    ((grantedNames cfg g recordIDs).count s : Int)
      + (if s = g.currentSliceDir then g.folderCount else 0) ≤ cfg.MaxPerDir := by
  obtain ⟨i1, i2, i3⟩ := grants_bounded cfg hB hBmax recordIDs g n hname hn1 hn2 hc0 hc
  by_cases hs : s = g.currentSliceDir
  · simp only [hs, if_true]
    rw [hname]; exact i2
  · simp only [hs, if_false, add_zero]
    by_cases hmem : s ∈ grantedNames cfg g recordIDs
    · obtain ⟨k, hk1, hk2, hk⟩ := i1 s hmem
      have hkn : k ≠ n := by
        intro h; subst h; exact hs (hk.trans hname.symm)
      rw [hk]
      exact i3 k (lt_of_le_of_ne hk1 (Ne.symm hkn)) hk2
    · rw [List.count_eq_zero.mpr hmem]
      simp only [Nat.cast_zero]; omega

/-! ## C9: shard names -/

theorem init_of_none (cfg : Config) (fs : Node) (g : GlobalState) (entries : List (String × Bool))
    (hroot : readDir fs cfg.PDFRoot = .ok entries) (hnone : sliceDirs entries = []) :
    initStorageState cfg fs g = (none, ⟨"00000", 0⟩) := by
  simp [initStorageState, hroot, hnone]

theorem init_of_max (cfg : Config) (fs : Node) (g : GlobalState) (entries : List (String × Bool))
    (hroot : readDir fs cfg.PDFRoot = .ok entries) (m c : Int) (hm : m ∈ sliceDirs entries)
    (hmax : ∀ x ∈ sliceDirs entries, x ≤ m) (hc : sourceFolders cfg fs m = some c) :
    initStorageState cfg fs g = (none, resumeOrAdvance cfg m c) := by
  have hl : sliceDirs entries ≠ [] := List.ne_nil_of_mem hm
  have hlen : ¬ (sliceDirs entries).length = 0 := by
    intro h; exact hl (List.length_eq_zero.mp h)
  obtain ⟨h1, h2⟩ := maxDir_spec _ hl
  have heq : ((sliceDirs entries).insertionSort (fun a b => a ≤ b)).getLastD 0 = m :=
    le_antisymm (hmax _ h1) (h2 m hm)
  unfold sourceFolders at hc
  simp only [initStorageState, hroot, hlen, if_false, heq]
  split at hc
  · rename_i es hes
    simp only [Option.some.injEq] at hc
    simp only [hes, hc]
  · rename_i hes
    simp only [Option.some.injEq] at hc
    simp only [hes, ← hc, countDirs, List.filter_nil, List.length_nil, Nat.cast_zero]
  · simp at hc

theorem mem_sliceDirs_iff (entries : List (String × Bool)) (x : Int) :
    x ∈ sliceDirs entries ↔ ∃ name, (name, true) ∈ entries ∧ Atoi name = some x := by
  unfold sliceDirs
  rw [List.mem_filterMap]
  constructor
  · rintro ⟨⟨name, isDir⟩, hmem, h⟩
    cases isDir with
    | false => simp at h
    | true => exact ⟨name, hmem, by simpa using h⟩
  · rintro ⟨name, hmem, h⟩
    exact ⟨(name, true), hmem, by simpa using h⟩

theorem init_source_error (cfg : Config) (fs : Node) (g : GlobalState)
    (entries : List (String × Bool)) (hroot : readDir fs cfg.PDFRoot = .ok entries) (m : Int)
    (hm : m ∈ sliceDirs entries) (hmax : ∀ x ∈ sliceDirs entries, x ≤ m)
    (hc : sourceFolders cfg fs m = none) :
    ∃ e, initStorageState cfg fs g
      = (some (.readSource e), { g with currentSliceDir := fmtZeroPad 5 m }) := by
  have hl : sliceDirs entries ≠ [] := List.ne_nil_of_mem hm
  have hlen : ¬ (sliceDirs entries).length = 0 := by
    intro h; exact hl (List.length_eq_zero.mp h)
  obtain ⟨h1, h2⟩ := maxDir_spec _ hl
  have heq : ((sliceDirs entries).insertionSort (fun a b => a ≤ b)).getLastD 0 = m :=
    le_antisymm (hmax _ h1) (h2 m hm)
  unfold sourceFolders at hc
  simp only [initStorageState, hroot, hlen, if_false, heq]
  split at hc
  · simp at hc
  · simp at hc
  · rename_i e _ _
    exact ⟨e, rfl⟩

/-- C5 (as amended): on a readable storage root, without a numeric-named
subdirectory the state is shard "00000" with count 0. Otherwise let `m` be the
largest number of a numeric-named subdirectory and `c` the number of
subdirectories under `<root>/<m written with %05d>/source`, the path the code
reads (0 when that path does not exist). Then the state is `(m, c)` when `c` is
below the bound; when it is not, the state is `(m + 1, 0)` for `m` below the
largest machine integer and the shard of the smallest machine integer for `m`
the largest; names are written with `%05d`. When that `source` path exists and
cannot be read, `initStorageState` returns the error of reading it. -/
theorem C5_initStorageState (cfg : Config) (fs : Node) (g : GlobalState)
    (entries : List (String × Bool)) (hroot : readDir fs cfg.PDFRoot = .ok entries) :
    ((∀ name x, (name, true) ∈ entries → Atoi name ≠ some x) →
      initStorageState cfg fs g = (none, ⟨"00000", 0⟩)) ∧
    (∀ (name : String) (m : Int), (name, true) ∈ entries → Atoi name = some m →
      (∀ name2 x, (name2, true) ∈ entries → Atoi name2 = some x → x ≤ m) →
      (∀ c : Int, sourceFolders cfg fs m = some c →
        (c < cfg.MaxPerDir → initStorageState cfg fs g = (none, ⟨fmtZeroPad 5 m, c⟩)) ∧
        (c ≥ cfg.MaxPerDir → m < maxInt →
          initStorageState cfg fs g = (none, ⟨fmtZeroPad 5 (m + 1), 0⟩)) ∧
        (c ≥ cfg.MaxPerDir → m = maxInt →
          initStorageState cfg fs g = (none, ⟨fmtZeroPad 5 minInt, 0⟩))) ∧
      (sourceFolders cfg fs m = none →
        ∃ e, (initStorageState cfg fs g).1 = some (.readSource e))) := by
  constructor
  · intro hnone
    apply init_of_none cfg fs g entries hroot
    apply List.eq_nil_iff_forall_not_mem.mpr
    intro x hx
    obtain ⟨name, hmem, hname⟩ := (mem_sliceDirs_iff entries x).mp hx
    exact hnone name x hmem hname
  · intro name m hmem hname hmaxn
    have hm : m ∈ sliceDirs entries := (mem_sliceDirs_iff entries m).mpr ⟨name, hmem, hname⟩
    have hmax : ∀ x ∈ sliceDirs entries, x ≤ m := by
      intro x hx
      obtain ⟨name2, hmem2, hname2⟩ := (mem_sliceDirs_iff entries x).mp hx
      exact hmaxn name2 x hmem2 hname2
    constructor
    · intro c hc
      have h := init_of_max cfg fs g entries hroot m c hm hmax hc
      refine ⟨?_, ?_, ?_⟩
      · intro hlt
        have : ¬ c ≥ cfg.MaxPerDir := not_le.mpr hlt
        simpa [resumeOrAdvance, this] using h
      · intro hge hlt
        have hr := sliceDirs_range entries m hm
        have hw : wrapInt (m + 1) = m + 1 :=
          wrapInt_of_range _ (by unfold minInt at *; omega) (by unfold maxInt at *; omega)
        simpa [resumeOrAdvance, hge, hw] using h
      · intro hge hmx
        subst hmx
        have hw : wrapInt (maxInt + 1) = minInt := by decide
        simpa [resumeOrAdvance, hge, hw] using h
    · intro hc
      obtain ⟨e, he⟩ := init_source_error cfg fs g entries hroot m hm hmax hc
      exact ⟨e, by rw [he]⟩

theorem names_none_of_sliceDirs (entries : List (String × Bool)) (h : sliceDirs entries = []) :
    ∀ name x, (name, true) ∈ entries → Atoi name ≠ some x := by
  intro name x hmem hname
  have := (mem_sliceDirs_iff entries x).mpr ⟨name, hmem, hname⟩
  rw [h] at this
  simp at this

theorem names_le_of_sliceDirs (entries : List (String × Bool)) (m : Int)
    (h : ∀ x ∈ sliceDirs entries, x ≤ m) :
    ∀ name x, (name, true) ∈ entries → Atoi name = some x → x ≤ m :=
  fun name x hmem hname => h x ((mem_sliceDirs_iff entries x).mpr ⟨name, hmem, hname⟩)

/-- C5, witness: an empty root starts at shard "00000"; a root with the shards
"00003" and "7" resumes at shard 7, whose `source` is absent, with count 0; a
root whose only shard "00003" holds three folders starts shard "00004" with
bound 2; and a root whose shard "00003" has a regular file in the place of
`source` makes `initStorageState` fail. -/
theorem C5_initStorageState_witness :
    initStorageState (cfgBound 2) emptyRootFS ⟨"", 0⟩ = (none, ⟨"00000", 0⟩) ∧
    initStorageState (cfgBound 2) twoShardFS ⟨"", 0⟩ = (none, ⟨fmtZeroPad 5 7, 0⟩) ∧
    initStorageState (cfgBound 2) overfullShardFS ⟨"", 0⟩ = (none, ⟨fmtZeroPad 5 (3 + 1), 0⟩) ∧
    (∃ e, (initStorageState (cfgBound 2) sourceIsFileFS ⟨"", 0⟩).1 = some (.readSource e)) :=
  ⟨(C5_initStorageState (cfgBound 2) emptyRootFS ⟨"", 0⟩ [] (by decide)).1
      (names_none_of_sliceDirs [] (by decide)),
   (((C5_initStorageState (cfgBound 2) twoShardFS ⟨"", 0⟩
      [("00003", true), ("7", true), ("notes", true)] (by decide)).2 "7" 7 (by decide)
      (by decide) (names_le_of_sliceDirs _ 7 (by decide))).1 0 (by decide)).1 (by decide),
   (((C5_initStorageState (cfgBound 2) overfullShardFS ⟨"", 0⟩
      [("00003", true)] (by decide)).2 "00003" 3 (by decide)
      (by decide) (names_le_of_sliceDirs _ 3 (by decide))).1 3 (by decide)).2.1 (by decide)
      (by decide),
   ((C5_initStorageState (cfgBound 2) sourceIsFileFS ⟨"", 0⟩
      [("00003", true)] (by decide)).2 "00003" 3 (by decide)
      (by decide) (names_le_of_sliceDirs _ 3 (by decide))).2 (by decide)⟩

/-- C5, counterexample: on a readable root whose largest shard has a regular
file in the place of `source`, `initStorageState` returns an error; on a
readable root whose largest shard is numbered by the largest machine integer
and is full, the state is the shard of the smallest machine integer, not of
`m + 1`; and on a readable root whose only shard directory is named "7" and
holds three folders, with bound 2, the state is ("00007", 0), because the
folders are counted under "00007", not (8, 0). -/
theorem C5_counterexample :
    (readDir sourceIsFileFS (cfgBound 2).PDFRoot = .ok [("00003", true)] ∧
      (initStorageState (cfgBound 2) sourceIsFileFS ⟨"", 0⟩).1
        = some (.readSource .notDir)) ∧
    (readDir fullMaxShardFS (cfgBound 1).PDFRoot = .ok [("9223372036854775807", true)] ∧
      sliceDirs [("9223372036854775807", true)] = [9223372036854775807] ∧
      sourceFolders (cfgBound 1) fullMaxShardFS 9223372036854775807 = some 1 ∧
      initStorageState (cfgBound 1) fullMaxShardFS ⟨"", 0⟩
        = (none, ⟨"-9223372036854775808", 0⟩) ∧
      fmtZeroPad 5 (9223372036854775807 + 1) = "9223372036854775808") ∧
    (readDir unpaddedShardFS (cfgBound 2).PDFRoot = .ok [("7", true)] ∧
      Atoi "7" = some 7 ∧
      readDir unpaddedShardFS ["pdf", "7", "source"]
        = .ok [("a", true), ("b", true), ("c", true)] ∧
      readDir unpaddedShardFS ["pdf", "00007", "source"] = .error .notExist ∧
      initStorageState (cfgBound 2) unpaddedShardFS ⟨"", 0⟩ = (none, ⟨"00007", 0⟩) ∧
      fmtZeroPad 5 (7 + 1) = "00008") := by
  decide

/-! ## File-system lemmas -/

theorem lookup_setChild (c : String) (sub old : Node) (ch : List (String × Node))
    (h : ch.lookup c = some old) : (setChild c sub ch).lookup c = some sub := by
  induction ch with
  | nil => simp at h
  | cons e es ih =>
    obtain ⟨a, b⟩ := e
    by_cases hc : c = a
    · subst hc; simp [setChild, List.lookup]
    · have hb : (c == a) = false := by simpa using hc
      simp only [List.lookup, hb] at h
      simp only [setChild, hb, List.lookup]
      exact ih h

theorem entries_setChild (c : String) (sub old : Node) (ch : List (String × Node))
    (h : ch.lookup c = some old) (hd : sub.isDir = old.isDir) :
    (setChild c sub ch).map (fun e => (e.1, e.2.isDir)) = ch.map (fun e => (e.1, e.2.isDir)) := by
  induction ch with
  | nil => rfl
  | cons e es ih =>
    obtain ⟨a, b⟩ := e
    by_cases hc : c = a
    · subst hc
      simp only [List.lookup, beq_self_eq_true, Option.some.injEq] at h
      subst h
      simp [setChild, hd]
    · have hb : (c == a) = false := by simpa using hc
      simp only [List.lookup, hb] at h
      simp [setChild, hb, ih h]

theorem lookup_mem_entries (c : String) (old : Node) (ch : List (String × Node))
    (h : ch.lookup c = some old) : (c, old.isDir) ∈ ch.map (fun e => (e.1, e.2.isDir)) := by
  induction ch with
  | nil => simp at h
  | cons e es ih =>
    obtain ⟨a, b⟩ := e
    by_cases hc : c = a
    · subst hc
      simp only [List.lookup, beq_self_eq_true, Option.some.injEq] at h
      subst h
      simp
    · have hb : (c == a) = false := by simpa using hc
      simp only [List.lookup, hb] at h
      exact List.mem_cons_of_mem _ (ih h)

theorem walk_append (p q : Path) : ∀ (fs b : Node), walk p fs = .ok b →
    walk (p ++ q) fs = walk q b := by
  induction p with
  | nil => intro fs b h; simp only [walk, Except.ok.injEq] at h; subst h; rfl
  | cons c p ih =>
    intro fs b h
    cases fs with
    | file st => simp [walk] at h
    | dir r ch =>
      simp only [walk] at h
      simp only [List.cons_append, walk]
      cases hl : ch.lookup c with
      | none => simp [hl] at h
      | some sub =>
        simp only [hl] at h ⊢
        exact ih sub b h

theorem readDir_append (p q : Path) (fs b : Node) (h : walk p fs = .ok b) :
    readDir fs (p ++ q) = readDir b q := by
  simp only [readDir, walk_append p q fs b h]

theorem mkdirAll_append (p rest : Path) : ∀ (fs b fs1 : Node), walk p fs = .ok b →
    mkdirAll (p ++ rest) fs = .ok fs1 →
    ∃ b1, mkdirAll rest b = .ok b1 ∧ walk p fs1 = .ok b1 := by
  induction p with
  | nil =>
    intro fs b fs1 h hm
    simp only [walk, Except.ok.injEq] at h; subst h
    exact ⟨fs1, hm, rfl⟩
  | cons c p ih =>
    intro fs b fs1 h hm
    cases fs with
    | file st => simp [walk] at h
    | dir r ch =>
      simp only [walk] at h
      simp only [List.cons_append, mkdirAll] at hm
      cases hl : ch.lookup c with
      | none => simp [hl] at h
      | some sub =>
        simp only [hl] at h hm
        cases hs : mkdirAll (p ++ rest) sub with
        | error e => simp [hs] at hm
        | ok sub1 =>
          simp only [List.append_eq, hs, Except.ok.injEq] at hm
          subst hm
          obtain ⟨b1, hb1, hw⟩ := ih sub b sub1 h hs
          refine ⟨b1, hb1, ?_⟩
          simp only [walk, lookup_setChild c sub1 sub ch hl]
          exact hw

theorem countDirs_append_dir (es : List (String × Bool)) (x : String) :
    countDirs (es ++ [(x, true)]) = countDirs es + 1 := by
  simp [countDirs, List.filter_append]

/-- Creating a new folder `s/source/id` below the storage root: the root's
listing keeps its entries, with `s` added when it was missing, and the number
of folders under `s/source` grows by one. -/
theorem mkdir_local (b b1 : Node) (s id : String) (E : List (String × Bool))
    (hE : readDir b [] = .ok E)
    (hnew : walk [s, "source", id] b = .error .notExist)
    (hmk : mkdirAll [s, "source", id] b = .ok b1) :
    ((readDir b1 [] = .ok E ∧ (s, true) ∈ E) ∨
      (readDir b1 [] = .ok (E ++ [(s, true)]) ∧ localFolders b s = some 0)) ∧
    (∀ c, localFolders b s = some c → localFolders b1 s = some (c + 1)) := by
  cases b with
  | file st => simp [readDir, walk] at hE
  | dir r ch =>
    cases r with
    | false => simp [readDir, walk] at hE
    | true =>
      simp only [readDir, walk, Except.ok.injEq] at hE
      subst hE
      cases hl : ch.lookup s with
      | none =>
        simp [mkdirAll, hl] at hmk
        subst hmk
        refine ⟨Or.inr ⟨?_, ?_⟩, ?_⟩
        · simp [readDir, walk, Node.isDir]
        · simp [localFolders, readDir, walk, hl]
        · intro c hc
          simp only [localFolders, readDir, walk, hl, Option.some.injEq] at hc
          subst hc
          simp [localFolders, readDir, walk, List.lookup_append, hl, List.lookup, countDirs,
            Node.isDir]
      | some sub =>
        cases sub with
        | file st => simp [mkdirAll, hl] at hmk
        | dir r2 ch2 =>
          have hmem := lookup_mem_entries s _ ch hl
          cases hl2 : ch2.lookup "source" with
          | none =>
            simp [mkdirAll, hl, hl2] at hmk
            subst hmk
            refine ⟨Or.inl ⟨?_, hmem⟩, ?_⟩
            · simp only [readDir, walk, Except.ok.injEq]
              exact entries_setChild s _ _ ch hl rfl
            · intro c hc
              simp only [localFolders, readDir, walk, hl, hl2, Option.some.injEq] at hc
              subst hc
              simp [localFolders, readDir, walk, lookup_setChild s _ _ ch hl,
                List.lookup_append, hl2, List.lookup, countDirs, Node.isDir]
          | some src =>
            cases src with
            | file st => simp [mkdirAll, hl, hl2] at hmk
            | dir r3 ch3 =>
              cases hl3 : ch3.lookup id with
              | some x => simp [walk, hl, hl2, hl3] at hnew
              | none =>
                simp [mkdirAll, hl, hl2, hl3] at hmk
                subst hmk
                refine ⟨Or.inl ⟨?_, hmem⟩, ?_⟩
                · simp only [readDir, walk, Except.ok.injEq]
                  exact entries_setChild s _ _ ch hl rfl
                · intro c hc
                  cases r3 with
                  | false => simp [localFolders, readDir, walk, hl, hl2] at hc
                  | true =>
                    simp only [localFolders, readDir, walk, hl, hl2, Option.some.injEq] at hc
                    subst hc
                    simp [localFolders, readDir, walk, lookup_setChild s _ _ ch hl,
                      lookup_setChild "source" _ _ ch2 hl2, countDirs, List.filter_append,
                      Node.isDir]

/-! ## C6: restart -/

theorem init_cases (cfg : Config) (fs : Node) (g0 g : GlobalState)
    (h : initStorageState cfg fs g0 = (none, g)) :
    ∃ E, readDir fs cfg.PDFRoot = .ok E ∧
      ((sliceDirs E = [] ∧ g = ⟨"00000", 0⟩) ∨
        ∃ m c, m ∈ sliceDirs E ∧ (∀ x ∈ sliceDirs E, x ≤ m) ∧
          sourceFolders cfg fs m = some c ∧ g = resumeOrAdvance cfg m c) := by
  unfold initStorageState at h
  split at h
  · simp at h
  · rename_i entries hroot
    refine ⟨entries, hroot, ?_⟩
    split at h
    · rename_i hlen
      simp only [Prod.mk.injEq, true_and] at h
      exact Or.inl ⟨List.length_eq_zero.mp hlen, h.symm⟩
    · rename_i hne
      have hl : sliceDirs entries ≠ [] := by
        intro hh; rw [hh] at hne; simp at hne
      obtain ⟨h1, h2⟩ := maxDir_spec _ hl
      right
      simp only at h
      split at h
      · rename_i es hes
        simp only [Prod.mk.injEq, true_and] at h
        exact ⟨_, _, h1, h2, by simp only [sourceFolders, hes], h.symm⟩
      · rename_i hes
        simp only [Prod.mk.injEq, true_and] at h
        refine ⟨_, _, h1, h2, ?_, h.symm⟩
        simp only [sourceFolders, hes, countDirs, List.filter_nil, List.length_nil, Nat.cast_zero]
      · simp at h

/-- The state a successful `initStorageState` leaves does not depend on the
state it starts from. -/
theorem init_indep (cfg : Config) (fs : Node) (g0 g : GlobalState)
    (h : initStorageState cfg fs g0 = (none, g)) (g1 : GlobalState) :
    initStorageState cfg fs g1 = (none, g) := by
  obtain ⟨E, hroot, hcase⟩ := init_cases cfg fs g0 g h
  rcases hcase with ⟨hnone, rfl⟩ | ⟨m, c, hm, hmax, hc, rfl⟩
  · exact init_of_none cfg fs g1 E hroot hnone
  · exact init_of_max cfg fs g1 E hroot m c hm hmax hc

theorem sourceFolders_nonneg (cfg : Config) (fs : Node) (m c : Int)
    (h : sourceFolders cfg fs m = some c) : 0 ≤ c := by
  unfold sourceFolders at h
  split at h
  · simp only [Option.some.injEq] at h; subst h; exact countDirs_nonneg _
  · simp only [Option.some.injEq] at h; omega
  · simp at h

theorem mem_sliceDirs_of_entry (E : List (String × Bool)) (s : String) (n : Int)
    (hs : Atoi s = some n) (h : (s, true) ∈ E) : n ∈ sliceDirs E := by
  unfold sliceDirs
  exact List.mem_filterMap.mpr ⟨(s, true), h, by simp [hs]⟩

theorem sliceDirs_append_dir (E : List (String × Bool)) (s : String) (n : Int)
    (hs : Atoi s = some n) : sliceDirs (E ++ [(s, true)]) = sliceDirs E ++ [n] := by
  simp [sliceDirs, List.filterMap_append, hs]

theorem RestartInv_init (cfg : Config) (fs : Node) (g0 g : GlobalState)
    (E : List (String × Bool)) (budget : Nat)
    (hinit : initStorageState cfg fs g0 = (none, g))
    (hroot : readDir fs cfg.PDFRoot = .ok E)
    (hrange : ∀ x ∈ 0 :: sliceDirs E, x + budget < maxInt) :
    RestartInv cfg fs g budget := by
  obtain ⟨E1, hroot1, hcase⟩ := init_cases cfg fs g0 g hinit
  rw [hroot] at hroot1
  simp only [Except.ok.injEq] at hroot1
  subst hroot1
  have hindep := init_indep cfg fs g0 g hinit
  rcases hcase with ⟨hnone, rfl⟩ | ⟨m, c, hm, hmax, hc, rfl⟩
  · refine ⟨E, 0, hroot, by decide, by decide, le_of_lt (hrange 0 (List.mem_cons_self _ _)), ?_,
      Or.inl ?_⟩
    · intro x hx; rw [hnone] at hx; simp at hx
    · exact ⟨rfl, by rw [hnone]; simp, hindep⟩
  · have hr := sliceDirs_range E m hm
    have hb := hrange m (List.mem_cons_of_mem _ hm)
    by_cases hfull : c ≥ cfg.MaxPerDir
    · have hw : wrapInt (m + 1) = m + 1 :=
        wrapInt_of_range _ (by unfold minInt at *; omega) (by unfold maxInt at *; omega)
      have hres : resumeOrAdvance cfg m c = ⟨fmtZeroPad 5 (m + 1), 0⟩ := by
        simp [resumeOrAdvance, hfull, hw]
      rw [hres] at hindep ⊢
      refine ⟨E, m + 1, hroot, rfl, by unfold minInt at *; omega, ?_, ?_, Or.inl ⟨rfl, ?_, hindep⟩⟩
      · omega
      · intro x hx; have := hmax x hx; omega
      · intro hmem; have := hmax _ hmem; omega
    · have hres : resumeOrAdvance cfg m c = ⟨fmtZeroPad 5 m, c⟩ := by
        simp [resumeOrAdvance, hfull]
      rw [hres]
      refine ⟨E, m, hroot, rfl, hr.1, le_of_lt hb, hmax, Or.inr ⟨hm, hc, ?_⟩⟩
      exact le_of_lt (lt_of_not_ge hfull)

theorem readDir_root_walk (fs : Node) (p : Path) (E : List (String × Bool))
    (h : readDir fs p = .ok E) : ∃ b, walk p fs = .ok b ∧ readDir b [] = .ok E := by
  unfold readDir at h
  cases hw : walk p fs with
  | error e => simp [hw] at h
  | ok b =>
    refine ⟨b, rfl, ?_⟩
    simp only [hw] at h
    simpa [readDir, walk] using h

theorem sourceFolders_local (cfg : Config) (fs b : Node) (m : Int)
    (hw : walk cfg.PDFRoot fs = .ok b) :
    sourceFolders cfg fs m = localFolders b (fmtZeroPad 5 m) := by
  have hj : joinPath cfg.PDFRoot [fmtZeroPad 5 m, "source"]
      = cfg.PDFRoot ++ [fmtZeroPad 5 m, "source"] := by
    simp [joinPath, fmtZeroPad_ne_empty]
  simp only [sourceFolders, localFolders, hj, readDir_append _ _ fs b hw]

/-- One allocation whose path is created keeps the restart invariant. -/
theorem RestartInv_step (cfg : Config) (fs fs1 : Node) (g : GlobalState) (budget : Nat)
    (recordID : String) (hB : 1 ≤ cfg.MaxPerDir) (hBmax : cfg.MaxPerDir ≤ maxInt)
    (hid : recordID ≠ "")
    (hinv : RestartInv cfg fs g (budget + 1))
    (hnew : walk (allocateStoragePath cfg g recordID).1.1 fs = .error .notExist)
    (hmk : mkdirAll (allocateStoragePath cfg g recordID).1.1 fs = .ok fs1) :
    RestartInv cfg fs1 (allocateStoragePath cfg g recordID).2 budget := by
  obtain ⟨E, n, hroot, hname, hn1, hn2, hmax, hcase⟩ := hinv
  obtain ⟨b, hwalk, hE⟩ := readDir_root_walk fs cfg.PDFRoot E hroot
  have hnr : n ≤ maxInt := by push_cast at hn2; omega
  have hparse : Atoi g.currentSliceDir = some n := by
    rw [hname]; exact Atoi_fmtZeroPad 5 n hn1 hnr
  have h01 : wrapInt (0 + 1) = 0 + 1 := by decide
  -- the shard the allocation grants under
  have key : ∀ (k cnt : Int), minInt ≤ k → k + budget ≤ maxInt → (∀ x ∈ sliceDirs E, x ≤ k) →
      (allocateStoragePath cfg g recordID).1.1
        = cfg.PDFRoot ++ [fmtZeroPad 5 k, "source", recordID] →
      (allocateStoragePath cfg g recordID).2 = ⟨fmtZeroPad 5 k, cnt + 1⟩ →
      (localFolders b (fmtZeroPad 5 k) = some cnt ∨ (k ∉ sliceDirs E ∧ cnt = 0)) →
      cnt + 1 ≤ cfg.MaxPerDir →
      RestartInv cfg fs1 (allocateStoragePath cfg g recordID).2 budget := by
    intro k cnt hk1 hk2 hkmax hpath hstate hcnt hle
    have hkr : k ≤ maxInt := by omega
    rw [hpath] at hnew hmk
    rw [walk_append _ _ fs b hwalk] at hnew
    obtain ⟨b1, hmk1, hwalk1⟩ := mkdirAll_append _ _ fs b fs1 hwalk hmk
    obtain ⟨hlist, hcount⟩ := mkdir_local b b1 _ recordID E hE hnew hmk1
    have hpk := Atoi_fmtZeroPad 5 k hk1 hkr
    have hcnt1 : localFolders b (fmtZeroPad 5 k) = some cnt := by
      rcases hcnt with h | ⟨hnot, rfl⟩
      · exact h
      · rcases hlist with ⟨-, hmem⟩ | ⟨-, h0⟩
        · exact absurd (mem_sliceDirs_of_entry E _ k hpk hmem) hnot
        · exact h0
    have hsrc : sourceFolders cfg fs1 k = some (cnt + 1) := by
      rw [sourceFolders_local cfg fs1 b1 k hwalk1]; exact hcount cnt hcnt1
    rw [hstate]
    rcases hlist with ⟨hE1, hmem⟩ | ⟨hE1, -⟩
    · refine ⟨E, k, ?_, rfl, hk1, hk2, hkmax, Or.inr ⟨?_, hsrc, hle⟩⟩
      · have := readDir_append cfg.PDFRoot [] fs1 b1 hwalk1
        rw [List.append_nil] at this; rw [this]; exact hE1
      · exact mem_sliceDirs_of_entry E _ k hpk hmem
    · refine ⟨E ++ [(fmtZeroPad 5 k, true)], k, ?_, rfl, hk1, hk2, ?_, Or.inr ⟨?_, hsrc, hle⟩⟩
      · have := readDir_append cfg.PDFRoot [] fs1 b1 hwalk1
        rw [List.append_nil] at this; rw [this]; exact hE1
      · intro x hx
        rw [sliceDirs_append_dir E _ k hpk] at hx
        rcases List.mem_append.mp hx with hx | hx
        · exact hkmax x hx
        · simp only [List.mem_singleton] at hx; omega
      · rw [sliceDirs_append_dir E _ k hpk]; simp
  by_cases hroll : g.folderCount ≥ cfg.MaxPerDir
  · -- rollover: only from a shard that is on disk
    rcases hcase with ⟨hzero, -, -⟩ | ⟨hmem, hsrc, hle⟩
    · omega
    · have hw : wrapInt (n + 1) = n + 1 :=
        wrapInt_of_range _ (by unfold minInt at *; omega) (by push_cast at hn2; omega)
      have hpath : (allocateStoragePath cfg g recordID).1.1
          = cfg.PDFRoot ++ [fmtZeroPad 5 (n + 1), "source", recordID] := by
        simp [allocateStoragePath, hroll, incrementDir, hparse, hw, joinPath,
          fmtZeroPad_ne_empty, hid]
      have hstate : (allocateStoragePath cfg g recordID).2 = ⟨fmtZeroPad 5 (n + 1), 0 + 1⟩ := by
        simp only [allocateStoragePath, hroll, if_true, incrementDir, hparse, hw, h01]
      refine key (n + 1) 0 (by omega) (by push_cast at hn2 ⊢; omega)
        (fun x hx => by have := hmax x hx; omega) hpath hstate (Or.inr ⟨?_, rfl⟩) (by omega)
      intro hx; have := hmax _ hx; omega
  · have hlt : g.folderCount < cfg.MaxPerDir := lt_of_not_ge hroll
    have hpath : (allocateStoragePath cfg g recordID).1.1
        = cfg.PDFRoot ++ [fmtZeroPad 5 n, "source", recordID] := by
      simp [allocateStoragePath, hroll, hname, joinPath, fmtZeroPad_ne_empty, hid]
    rcases hcase with ⟨hzero, hnot, -⟩ | ⟨hmem, hsrc, hle⟩
    · have hstate : (allocateStoragePath cfg g recordID).2 = ⟨fmtZeroPad 5 n, 0 + 1⟩ := by
        simp only [allocateStoragePath, hroll, if_false]
        simp only [hname, hzero, h01]
      exact key n 0 hn1 (by push_cast at hn2 ⊢; omega) hmax hpath hstate (Or.inr ⟨hnot, rfl⟩)
        (by omega)
    · have hc0 := sourceFolders_nonneg cfg fs n _ hsrc
      have hwr : wrapInt (g.folderCount + 1) = g.folderCount + 1 :=
        wrapInt_of_range _ (by unfold minInt; omega) (by omega)
      have hstate : (allocateStoragePath cfg g recordID).2
          = ⟨fmtZeroPad 5 n, g.folderCount + 1⟩ := by
        simp only [allocateStoragePath, hroll, if_false, hname, hwr]
      refine key n g.folderCount hn1 (by push_cast at hn2 ⊢; omega) hmax hpath hstate
        (Or.inl ?_) (by omega)
      rw [← sourceFolders_local cfg fs b n hwalk]; exact hsrc

/-- From the restart invariant, `initStorageState` finds the expected state. -/
theorem RestartInv_restart (cfg : Config) (fs : Node) (g : GlobalState) (budget : Nat)
    (hB : 1 ≤ cfg.MaxPerDir) (hinv : RestartInv cfg fs g budget) (g1 : GlobalState) :
    initStorageState cfg fs g1 = (none, expectedAfterRestart cfg g) := by
  obtain ⟨E, n, hroot, hname, hn1, hn2, hmax, hcase⟩ := hinv
  have hnr : n ≤ maxInt := by omega
  rcases hcase with ⟨hzero, -, hinit⟩ | ⟨hmem, hsrc, hle⟩
  · have : g.folderCount < cfg.MaxPerDir := by omega
    simp only [expectedAfterRestart, this, if_true]
    exact hinit g1
  · rw [init_of_max cfg fs g1 E hroot n _ hmem hmax hsrc]
    by_cases hlt : g.folderCount < cfg.MaxPerDir
    · have hge : ¬ g.folderCount ≥ cfg.MaxPerDir := not_le.mpr hlt
      simp only [expectedAfterRestart, hlt, if_true, resumeOrAdvance, hge, if_false, ← hname]
    · have hge : g.folderCount ≥ cfg.MaxPerDir := not_lt.mp hlt
      simp only [expectedAfterRestart, hlt, if_false, resumeOrAdvance, hge, if_true,
        incrementDir, hname, Atoi_fmtZeroPad 5 n hn1 hnr]

theorem RestartInv_run (cfg : Config) (hB : 1 ≤ cfg.MaxPerDir) (hBmax : cfg.MaxPerDir ≤ maxInt) :
    ∀ (recordIDs : List String) (fs : Node) (g : GlobalState) (fs1 : Node) (g1 : GlobalState),
      (∀ id ∈ recordIDs, id ≠ "") → RestartInv cfg fs g recordIDs.length →
      allocRun cfg recordIDs (fs, g) = some (fs1, g1) → RestartInv cfg fs1 g1 0 := by
  intro recordIDs
  induction recordIDs with
  | nil =>
    intro fs g fs1 g1 _ hinv hrun
    simp only [allocRun, Option.some.injEq, Prod.mk.injEq] at hrun
    obtain ⟨rfl, rfl⟩ := hrun
    exact hinv
  | cons id rest ih =>
    intro fs g fs1 g1 hids hinv hrun
    simp only [allocRun] at hrun
    split at hrun
    · rename_i hnew
      split at hrun
      · rename_i fs2 hmk
        exact ih fs2 _ fs1 g1 (fun x hx => hids x (List.mem_cons_of_mem _ hx))
          (RestartInv_step cfg fs fs2 g rest.length id hB hBmax
            (hids id (List.mem_cons_self _ _)) hinv hnew hmk) hrun
      · simp at hrun
    · simp at hrun

/-- C6 (as amended): for a bound of at least 1 and shard numbers that stay
below the largest machine integer, after `initStorageState` and a run of
`allocateStoragePath` calls each of whose granted paths was created on disk,
`initStorageState` yields the state held before the restart, or the next shard
with count 0 when the count had reached the bound. -/
theorem C6_restart_idempotent (cfg : Config) (fs fs1 : Node) (g0 g g1 : GlobalState)
    (E : List (String × Bool)) (recordIDs : List String)
    (hB : 1 ≤ cfg.MaxPerDir) (hBmax : cfg.MaxPerDir ≤ maxInt)
    (hinit : initStorageState cfg fs g0 = (none, g))
    (hroot : readDir fs cfg.PDFRoot = .ok E)
    (hrange : ∀ x ∈ 0 :: sliceDirs E, x + recordIDs.length < maxInt)
    (hids : ∀ id ∈ recordIDs, id ≠ "")
    (hrun : allocRun cfg recordIDs (fs, g) = some (fs1, g1)) (g2 : GlobalState) :
    initStorageState cfg fs1 g2 = (none, expectedAfterRestart cfg g1) :=
  RestartInv_restart cfg fs1 g1 0 hB
    (RestartInv_run cfg hB hBmax recordIDs fs g fs1 g1 hids
      (RestartInv_init cfg fs g0 g E recordIDs.length hinit hroot hrange) hrun) g2

/-- C6, witness: bound 2, an empty storage root and three created folders; the
restart finds shard "00001" with count 1, the state before it. -/
theorem C6_restart_idempotent_witness :
    initStorageState (cfgBound 2) threeFoldersFS ⟨"", 0⟩
      = (none, expectedAfterRestart (cfgBound 2) ⟨"00001", 1⟩) :=
  C6_restart_idempotent (cfgBound 2) emptyRootFS threeFoldersFS ⟨"", 0⟩ ⟨"00000", 0⟩ ⟨"00001", 1⟩
    [] ["a", "b", "c"] (by decide) (by decide) (by decide) (by decide) (by decide) (by decide)
    rfl ⟨"", 0⟩

/-- C6, counterexample: with bound 0 and no allocation the count 0 has reached
the bound, and the restart yields shard "00000" again, not the next shard; and
with bound 1 on the full shard of the largest machine integer, after one
created folder the restart yields the shard of the smallest machine integer
with count 0, not the shard after it. -/
theorem C6_counterexample :
    (initStorageState (cfgBound 0) emptyRootFS ⟨"", 0⟩ = (none, ⟨"00000", 0⟩) ∧
      (allocRun (cfgBound 0) [] (emptyRootFS, ⟨"00000", 0⟩)).map
          (fun r => (initStorageState (cfgBound 0) r.1 ⟨"", 0⟩, r.2))
        = some ((none, ⟨"00000", 0⟩), ⟨"00000", 0⟩) ∧
      expectedAfterRestart (cfgBound 0) ⟨"00000", 0⟩ = ⟨"00001", 0⟩) ∧
    (initStorageState (cfgBound 1) fullMaxShardFS ⟨"", 0⟩
        = (none, ⟨"-9223372036854775808", 0⟩) ∧
      (allocRun (cfgBound 1) ["a"] (fullMaxShardFS, ⟨"-9223372036854775808", 0⟩)).map
          (fun r => (initStorageState (cfgBound 1) r.1 ⟨"", 0⟩, r.2))
        = some ((none, ⟨"-9223372036854775808", 0⟩), ⟨"-9223372036854775808", 1⟩) ∧
      expectedAfterRestart (cfgBound 1) ⟨"-9223372036854775808", 1⟩
        = ⟨"-9223372036854775807", 0⟩) := by
  decide

/-! ## C1: the allocator's bound -/

theorem observedFolders_of_none (cfg : Config) (fs : Node) (E : List (String × Bool))
    (hroot : readDir fs cfg.PDFRoot = .ok E) (hnone : sliceDirs E = []) (s : String) :
    observedFolders cfg fs s = 0 := by
  simp [observedFolders, hroot, hnone]

theorem observedFolders_of_max (cfg : Config) (fs : Node) (E : List (String × Bool))
    (hroot : readDir fs cfg.PDFRoot = .ok E) (m c : Int) (hm : m ∈ sliceDirs E)
    (hmax : ∀ x ∈ sliceDirs E, x ≤ m) (hc : sourceFolders cfg fs m = some c) (s : String) :
    observedFolders cfg fs s = if s = fmtZeroPad 5 m then c else 0 := by
  have hl : sliceDirs E ≠ [] := List.ne_nil_of_mem hm
  have hlen : ¬ (sliceDirs E).length = 0 := by
    intro h; exact hl (List.length_eq_zero.mp h)
  obtain ⟨h1, h2⟩ := maxDir_spec _ hl
  have heq : ((sliceDirs E).insertionSort (fun a b => a ≤ b)).getLastD 0 = m :=
    le_antisymm (hmax _ h1) (h2 m hm)
  unfold sourceFolders at hc
  simp only [observedFolders, hroot, hlen, if_false, heq]
  by_cases hs : s = fmtZeroPad 5 m
  · simp only [hs, if_true]
    split at hc
    · rename_i es hes
      simp only [Option.some.injEq] at hc
      simp only [hes, hc]
    · rename_i hes
      simp only [Option.some.injEq] at hc
      simp only [hes, hc]
    · simp at hc
  · simp only [hs, if_false]

/-- With a bound below 1 every call rolls over and leaves the count 1. -/
theorem alloc_count_of_nonpos_bound (cfg : Config) (hB : cfg.MaxPerDir ≤ 0) (g : GlobalState)
    (hg : 0 ≤ g.folderCount) (recordID : String) :
    (allocateStoragePath cfg g recordID).2.folderCount = 1 := by
  have hroll : g.folderCount ≥ cfg.MaxPerDir := by omega
  have h01 : wrapInt (0 + 1) = 1 := by decide
  simp only [allocateStoragePath, hroll, if_true, h01]

theorem allocSeq_count_nonneg_of_nonpos_bound (cfg : Config) (hB : cfg.MaxPerDir ≤ 0)
    (g : GlobalState) (hg : 0 ≤ g.folderCount) (recordIDs : List String) :
    0 ≤ (allocSeq cfg g recordIDs).folderCount := by
  induction recordIDs using List.reverseRecOn with
  | nil => exact hg
  | append_singleton ids id ih =>
    rw [allocSeq_append, alloc_count_of_nonpos_bound cfg hB _ ih]
    norm_num

/-- C1 (as amended): after `initStorageState` and any sequence of
`allocateStoragePath` calls, for a bound of at least 1 the folder count is at
most the bound; and while the shard numbers stay below the largest machine
integer, every shard name either is granted no path, or the number of paths
granted under it, counted together with the folders `initStorageState`
observed under that shard, is at most the bound (a shard found with the bound
or more folders keeps them and is granted none). For a bound below 1 the
folder count is 1 after every allocation. -/
theorem C1_folderCount_le_bound (cfg : Config) (fs : Node) (g0 g : GlobalState)
    (E : List (String × Bool)) (hinit : initStorageState cfg fs g0 = (none, g))
    (hroot : readDir fs cfg.PDFRoot = .ok E) (recordIDs : List String) :
    (1 ≤ cfg.MaxPerDir → (allocSeq cfg g recordIDs).folderCount ≤ cfg.MaxPerDir) ∧
    (1 ≤ cfg.MaxPerDir → cfg.MaxPerDir ≤ maxInt →
      (∀ x ∈ 0 :: sliceDirs E, x + recordIDs.length < maxInt) → ∀ s : String,
      (grantedNames cfg g recordIDs).count s = 0 ∨
        ((grantedNames cfg g recordIDs).count s : Int) + observedFolders cfg fs s
          ≤ cfg.MaxPerDir) ∧
    (cfg.MaxPerDir ≤ 0 → recordIDs ≠ [] → (allocSeq cfg g recordIDs).folderCount = 1) := by
  refine ⟨?_, ?_, ?_⟩
  · intro hB
    rcases (allocSeq_inv cfg fs g0 g hinit recordIDs).2.2 with h | h
    · exact h
    · omega
  · intro hB hBmax hrange s
    obtain ⟨E1, hroot1, hcase⟩ := init_cases cfg fs g0 g hinit
    rw [hroot] at hroot1
    simp only [Except.ok.injEq] at hroot1
    subst hroot1
    have h0 := hrange 0 (List.mem_cons_self _ _)
    rcases hcase with ⟨hnone, rfl⟩ | ⟨m, c, hm, hmax, hc, rfl⟩
    · right
      rw [observedFolders_of_none cfg fs E hroot hnone s]
      have := grants_per_shard cfg hB hBmax recordIDs ⟨"00000", 0⟩ 0 (by decide) (by decide)
        (by omega) (le_refl _) (by simp only; omega) s
      simp only [ite_self] at this
      exact this
    · have hr := sliceDirs_range E m hm
      have hb := hrange m (List.mem_cons_of_mem _ hm)
      have hc0 := sourceFolders_nonneg cfg fs m c hc
      rw [observedFolders_of_max cfg fs E hroot m c hm hmax hc s]
      by_cases hfull : c ≥ cfg.MaxPerDir
      · have hw : wrapInt (m + 1) = m + 1 :=
          wrapInt_of_range _ (by unfold minInt at *; omega) (by unfold maxInt at *; omega)
        have hres : resumeOrAdvance cfg m c = ⟨fmtZeroPad 5 (m + 1), 0⟩ := by
          simp [resumeOrAdvance, hfull, hw]
        rw [hres]
        by_cases hs : s = fmtZeroPad 5 m
        · left
          rw [List.count_eq_zero]
          intro hmem
          obtain ⟨k, hk1, hk2, hk⟩ := (grants_bounded cfg hB hBmax recordIDs
            ⟨fmtZeroPad 5 (m + 1), 0⟩ (m + 1) rfl (by unfold minInt at *; omega) (by omega)
            (le_refl _) (by simp only; omega)).1 s hmem
          rw [hs] at hk
          have := fmtZeroPad_inj m k hr.1 hr.2 (by unfold minInt at *; omega) hk2 hk
          omega
        · right
          have := grants_per_shard cfg hB hBmax recordIDs ⟨fmtZeroPad 5 (m + 1), 0⟩ (m + 1) rfl
            (by unfold minInt at *; omega) (by omega) (le_refl _) (by simp only; omega) s
          simp only [ite_self] at this
          simpa only [hs, if_false] using this
      · right
        have hres : resumeOrAdvance cfg m c = ⟨fmtZeroPad 5 m, c⟩ := by
          simp [resumeOrAdvance, hfull]
        rw [hres]
        exact grants_per_shard cfg hB hBmax recordIDs ⟨fmtZeroPad 5 m, c⟩ m rfl hr.1 (by omega)
          hc0 (by simp only; omega) s
  · intro hB hne
    obtain ⟨-, hc0, -⟩ := init_state cfg fs g0 g hinit
    obtain ⟨ids, id, rfl⟩ : ∃ ids id, recordIDs = ids ++ [id] := by
      rcases List.eq_nil_or_concat recordIDs with h | ⟨ids, id, h⟩
      · exact absurd h hne
      · exact ⟨ids, id, by simpa using h⟩
    rw [allocSeq_append]
    exact alloc_count_of_nonpos_bound cfg hB _
      (allocSeq_count_nonneg_of_nonpos_bound cfg hB g hc0 ids) id

/-- C1, witness: bound 2. On an empty storage root three allocations leave a
folder count within the bound, and shard "00000" gets two paths. On a root
whose largest shard "00001" was found with one folder, that shard gets one
more path of two. On a root whose shard "00003" was found with three folders,
that shard is granted none of three paths. With bound 0 the folder count after
two allocations is 1. -/
theorem C1_folderCount_le_bound_witness :
    (allocSeq (cfgBound 2) ⟨"00000", 0⟩ ["a", "b", "c"]).folderCount ≤ (cfgBound 2).MaxPerDir ∧
    ((grantedNames (cfgBound 2) ⟨"00000", 0⟩ ["a", "b", "c"]).count "00000" = 0 ∨
      ((grantedNames (cfgBound 2) ⟨"00000", 0⟩ ["a", "b", "c"]).count "00000" : Int)
        + observedFolders (cfgBound 2) emptyRootFS "00000" ≤ (cfgBound 2).MaxPerDir) ∧
    (observedFolders (cfgBound 2) threeFoldersFS "00001" = 1 ∧
      (grantedNames (cfgBound 2) ⟨"00001", 1⟩ ["d", "e"]).count "00001" = 1 ∧
      ((grantedNames (cfgBound 2) ⟨"00001", 1⟩ ["d", "e"]).count "00001" = 0 ∨
        ((grantedNames (cfgBound 2) ⟨"00001", 1⟩ ["d", "e"]).count "00001" : Int)
          + observedFolders (cfgBound 2) threeFoldersFS "00001" ≤ (cfgBound 2).MaxPerDir)) ∧
    ((grantedNames (cfgBound 2) ⟨"00004", 0⟩ ["a", "b", "c"]).count "00003" = 0 ∨
      ((grantedNames (cfgBound 2) ⟨"00004", 0⟩ ["a", "b", "c"]).count "00003" : Int)
        + observedFolders (cfgBound 2) overfullShardFS "00003" ≤ (cfgBound 2).MaxPerDir) ∧
    (allocSeq (cfgBound 0) ⟨"00000", 0⟩ ["a", "b"]).folderCount = 1 :=
  ⟨(C1_folderCount_le_bound (cfgBound 2) emptyRootFS ⟨"", 0⟩ ⟨"00000", 0⟩ [] (by decide)
      (by decide) ["a", "b", "c"]).1 (by decide),
   (C1_folderCount_le_bound (cfgBound 2) emptyRootFS ⟨"", 0⟩ ⟨"00000", 0⟩ [] (by decide)
      (by decide) ["a", "b", "c"]).2.1 (by decide) (by decide) (by decide) "00000",
   ⟨by decide, by decide,
    (C1_folderCount_le_bound (cfgBound 2) threeFoldersFS ⟨"", 0⟩ ⟨"00001", 1⟩
      [("00000", true), ("00001", true)] (by decide) (by decide) ["d", "e"]).2.1 (by decide)
      (by decide) (by decide) "00001"⟩,
   (C1_folderCount_le_bound (cfgBound 2) overfullShardFS ⟨"", 0⟩ ⟨"00004", 0⟩
      [("00003", true)] (by decide) (by decide) ["a", "b", "c"]).2.1 (by decide) (by decide)
      (by decide) "00003",
   (C1_folderCount_le_bound (cfgBound 0) emptyRootFS ⟨"", 0⟩ ⟨"00000", 0⟩ [] (by decide)
      (by decide) ["a", "b"]).2.2 (by decide) (by decide)⟩

/-- C1, counterexample: with bound 0 the first allocation after
`initStorageState` leaves a folder count of 1, above the bound; and with bound
2 on a root whose shard "00003" holds three folders, `initStorageState`
observes three folders under that shard, more than the bound, before any path
is granted. -/
theorem C1_counterexample :
    (initStorageState (cfgBound 0) emptyRootFS ⟨"", 0⟩ = (none, ⟨"00000", 0⟩) ∧
      (allocateStoragePath (cfgBound 0) ⟨"00000", 0⟩ "a").2 = ⟨"00001", 1⟩ ∧
      ¬ ((allocateStoragePath (cfgBound 0) ⟨"00000", 0⟩ "a").2.folderCount
          ≤ (cfgBound 0).MaxPerDir)) ∧
    (initStorageState (cfgBound 2) overfullShardFS ⟨"", 0⟩ = (none, ⟨"00004", 0⟩) ∧
      observedFolders (cfgBound 2) overfullShardFS "00003" = 3 ∧
      ¬ (((grantedNames (cfgBound 2) ⟨"00004", 0⟩ []).count "00003" : Int)
          + observedFolders (cfgBound 2) overfullShardFS "00003" ≤ (cfgBound 2).MaxPerDir)) := by
  decide

/-! ## C7, C2: document assembler -/

theorem merge_no_images (cfg : Config) (env : MergeEnv) (caseID : String)
    (detail : CaseDetail) (folderPath : Path) (isInside : Int) (w : World)
    (h : imagesIn w.fs folderPath = []) :
    ∃ e, mergeAndStorePDF cfg env caseID detail folderPath isInside w = ((some e, 0), w) := by
  unfold imagesIn at h
  unfold mergeAndStorePDF
  cases hr : readDir w.fs folderPath with
  | error e => exact ⟨.fs e, rfl⟩
  | ok files =>
    simp only [hr] at h
    simp only [h, List.length_nil, if_true]
    exact ⟨_, rfl⟩

/-- C7: for a folder with zero qualifying images `mergeAndStorePDF` returns an
error and the image count 0 and leaves the world as it was: no storage
directory, no change of the shard state, no archival record. -/
theorem C7_no_images_fails (cfg : Config) (env : MergeEnv) (caseID : String)
    (detail : CaseDetail) (folderPath : Path) (isInside : Int) (w : World)
    (h : imagesIn w.fs folderPath = []) :
    ∃ e, mergeAndStorePDF cfg env caseID detail folderPath isInside w = ((some e, 0), w) :=
  merge_no_images cfg env caseID detail folderPath isInside w h

/-- C7, witness: a folder holding a text file and a PNG file. -/
theorem C7_no_images_fails_witness :
    ∃ e, mergeAndStorePDF (cfgBound 2) (quietMerge "u1") "c1" detailC1 ["jpg", "s1", "c1"] 1
      (worldOf noImageFS) = ((some e, 0), worldOf noImageFS) :=
  C7_no_images_fails (cfgBound 2) (quietMerge "u1") "c1" detailC1 ["jpg", "s1", "c1"] 1
    (worldOf noImageFS) (by decide)

/-- C2, the code at the failing input: for a folder of two images of which one
fails the dimension probe, `mergeAndStorePDF` succeeds, the damaged list is that
one image and the stored document has one page, and the inserted record has
page count 2 in `record_pdf_page` and `record_sl`. -/
theorem C2_page_count_includes_damaged :
    (mergeAndStorePDF (cfgBound 2) (quietMerge "u1") "c1" detailC1 ["jpg", "s1", "c1"] 1
        (worldOf damagedFS)).1 = (none, 2) ∧
      imagesIn damagedFS ["jpg", "s1", "c1"] = ["a.jpg", "b.jpg"] ∧
      drawPages damagedFS ["jpg", "s1", "c1"] ["a.jpg", "b.jpg"] 0 [] = .ok (1, ["a.jpg"]) ∧
      pdfPagesAt (mergeAndStorePDF (cfgBound 2) (quietMerge "u1") "c1" detailC1
        ["jpg", "s1", "c1"] 1 (worldOf damagedFS)).2.fs
        ["pdf", "00000", "source", "u1", "u1.pdf"] = some 1 ∧
      (mergeAndStorePDF (cfgBound 2) (quietMerge "u1") "c1" detailC1 ["jpg", "s1", "c1"] 1
        (worldOf damagedFS)).2.eamRecord.map (fun r => (r.record_pdf_page, r.record_sl))
        = [(2, 2)] := by
  decide

/-! ## C4: the outcome update -/

/-- C4, the code at the failing input: the outcome update fails and the
clearing of the image-set reference succeeds; `markCaseSuccess` returns nil,
and `processCase` ends without `markCaseFailed`: the case keeps outcome 1 with
no failure reason, and its image-set reference is cleared. -/
theorem C4_first_error_overwritten :
    (updateOutcome outcomeUpdateFailsEnv "c1" (worldOf oneImageFS)).1 = some .store ∧
      (markCaseSuccess outcomeUpdateFailsEnv "c1" true (worldOf oneImageFS)).1 = none ∧
      (processCaseBody (cfgBound 2) outcomeUpdateFailsEnv caseRelocate (worldOf oneImageFS)).1
        = none ∧
      (processCase (cfgBound 2) outcomeUpdateFailsEnv caseRelocate (worldOf oneImageFS)).fileInput
        = [⟨"c1", 1, none⟩] ∧
      (processCase (cfgBound 2) outcomeUpdateFailsEnv caseRelocate
        (worldOf oneImageFS)).eamFile.map (fun r => r.file_slice_image) = [none] := by
  decide

/-! ## C3: soft and hard failures of the outer zone -/

theorem sqlMax_eq_none (l : List Int) (h : l = []) : sqlMax l = none := by
  subst h; rfl

theorem sqlMax_spec (l : List Int) : ∀ m, sqlMax l = some m → m ∈ l ∧ ∀ x ∈ l, x ≤ m := by
  induction l with
  | nil => intro m h; simp [sqlMax] at h
  | cons a t ih =>
    intro m h
    simp only [sqlMax] at h
    cases ht : sqlMax t with
    | none =>
      simp only [ht, Option.some.injEq] at h
      subst h
      cases t with
      | nil => simp
      | cons b u =>
        simp only [sqlMax] at ht
        split at ht <;> simp at ht
    | some k =>
      simp only [ht, Option.some.injEq] at h
      obtain ⟨hk1, hk2⟩ := ih k ht
      subst h
      constructor
      · rcases le_total a k with hak | hak
        · rw [max_eq_right hak]; exact List.mem_cons_of_mem _ hk1
        · rw [max_eq_left hak]; exact List.mem_cons_self _ _
      · intro x hx
        rcases List.mem_cons.mp hx with rfl | hx
        · exact le_max_left _ _
        · exact le_trans (hk2 x hx) (le_max_right _ _)

theorem sqlMax_ne_none (l : List Int) (m : Int) (hm : m ∈ l) : ∃ k, sqlMax l = some k := by
  cases l with
  | nil => simp at hm
  | cons a t =>
    simp only [sqlMax]
    split
    · exact ⟨_, rfl⟩
    · exact ⟨_, rfl⟩

/-- The sequence number `insertEAMRecord` computes (`nextSeq`). -/
theorem nextSeq_spec (l : List Int) :
    (l = [] → (match sqlMax l with | none => (1 : Int) | some m => wrapInt (m + 1)) = 1) ∧
    (∀ m, m ∈ l → (∀ x ∈ l, x ≤ m) → minInt ≤ m → m < maxInt →
      (match sqlMax l with | none => (1 : Int) | some m => wrapInt (m + 1)) = m + 1) := by
  constructor
  · intro h; rw [sqlMax_eq_none l h]
  · intro m hm hmax h1 h2
    obtain ⟨k, hk⟩ := sqlMax_ne_none l m hm
    obtain ⟨hk1, hk2⟩ := sqlMax_spec l k hk
    have : k = m := le_antisymm (hmax k hk1) (hk2 m hm)
    subst this
    simp only [hk]
    exact wrapInt_of_range _ (by unfold minInt at *; omega) (by unfold maxInt at *; omega)

/-- A successful `insertEAMRecord` appends one record of the case, with the
computed sequence number and label. -/
theorem insertEAMRecord_ok (env : MergeEnv) (recordID : String) (detail : CaseDetail)
    (storagePath caseID : String) (isInside : Int) (md5Str sm3Str : String)
    (pageCount pdfSize : Int) (illustration : List String) (w : World)
    (hq : env.seqQueryFails = false) (hi : env.insertFails = false) :
    ∃ (row : EAMRecord),
      insertEAMRecord env recordID detail storagePath caseID isInside md5Str sm3Str pageCount
        pdfSize illustration w = (none, { w with eamRecord := w.eamRecord ++ [row] }) ∧
      row.record_file = caseID ∧
      row.record_wj_xh = some (match sqlMax (caseSeqs w caseID) with
        | none => 1
        | some m => wrapInt (m + 1)) ∧
      row.record_wjdh = detail.FileAjdh ++ "-" ++ fmtZeroPad 3
        (match sqlMax (caseSeqs w caseID) with
        | none => 1
        | some m => wrapInt (m + 1)) := by
  refine ⟨
    { record_id := recordID
      record_pdf_size := pdfSize
      record_wj_xh := some (match sqlMax (caseSeqs w caseID) with
        | none => 1
        | some m => wrapInt (m + 1))
      record_wjdh := detail.FileAjdh ++ "-" ++ fmtZeroPad 3
        (match sqlMax (caseSeqs w caseID) with
        | none => 1
        | some m => wrapInt (m + 1))
      record_wjtm := if isInside = 2 then "案卷合成文件（内部）" else "案卷合成文件（外部）"
      record_fz :=
        if illustration.length ≠ 0 then
          "PDF文件合成时间：" ++ env.now ++ ",图片路径：" ++ storagePath ++ ",存在损坏图片："
            ++ joinStrings ";" illustration
        else "PDF文件合成时间：" ++ env.now ++ ",图片路径：" ++ storagePath
      record_pdf_page := pageCount
      record_sl := pageCount
      record_slice_id := storagePath
      record_file := caseID
      record_sproject := detail.FileSProject
      record_project := detail.FileProject
      record_md5 := md5Str
      record_sm3 := sm3Str
      record_isinside := isInside },
    ?_, rfl, rfl, rfl⟩
  simp only [insertEAMRecord, hq, hi, Bool.false_eq_true, if_false, caseSeqs]

theorem caseSeqs_append (w : World) (row : EAMRecord) (caseID : String) (seq : Int)
    (hf : row.record_file = caseID) (hs : row.record_wj_xh = some seq) :
    caseSeqs { w with eamRecord := w.eamRecord ++ [row] } caseID = caseSeqs w caseID ++ [seq] := by
  simp [caseSeqs, List.filter_append, List.filterMap_append, hf, hs]

/-- C8 (as amended): when its two statements succeed, `insertEAMRecord` appends
one record of the case whose `record_wj_xh` is 1 when the case has no sequence
number yet and otherwise the largest existing one plus 1, provided that one is
below the largest machine integer; `record_wjdh` is the archive code, a hyphen
and the sequence number written with `%03d`; and after an insert for a case
without sequence numbers the next successful insert for the case gets 2. -/
theorem C8_sequence_assignment (env : MergeEnv) (recordID : String) (detail : CaseDetail)
    (storagePath caseID : String) (isInside : Int) (md5Str sm3Str : String)
    (pageCount pdfSize : Int) (illustration : List String) (w : World)
    (hq : env.seqQueryFails = false) (hi : env.insertFails = false) :
    ∃ (row : EAMRecord) (seq : Int),
      insertEAMRecord env recordID detail storagePath caseID isInside md5Str sm3Str pageCount
        pdfSize illustration w = (none, { w with eamRecord := w.eamRecord ++ [row] }) ∧
      row.record_file = caseID ∧ row.record_wj_xh = some seq ∧
      row.record_wjdh = detail.FileAjdh ++ "-" ++ fmtZeroPad 3 seq ∧
      (caseSeqs w caseID = [] → seq = 1) ∧
      (∀ m, m ∈ caseSeqs w caseID → (∀ x ∈ caseSeqs w caseID, x ≤ m) → minInt ≤ m →
        m < maxInt → seq = m + 1) ∧
      (caseSeqs w caseID = [] →
        ∀ (env2 : MergeEnv) (recordID2 : String) (detail2 : CaseDetail) (storagePath2 : String)
          (isInside2 : Int) (md5Str2 sm3Str2 : String) (pageCount2 pdfSize2 : Int)
          (illustration2 : List String),
          env2.seqQueryFails = false → env2.insertFails = false →
          ∃ row2 : EAMRecord,
            insertEAMRecord env2 recordID2 detail2 storagePath2 caseID isInside2 md5Str2 sm3Str2
              pageCount2 pdfSize2 illustration2 { w with eamRecord := w.eamRecord ++ [row] }
              = (none, { w with eamRecord := w.eamRecord ++ [row] ++ [row2] }) ∧
            row2.record_wj_xh = some 2 ∧
            row2.record_wjdh = detail2.FileAjdh ++ "-" ++ fmtZeroPad 3 2) := by
  have hspec := nextSeq_spec (caseSeqs w caseID)
  obtain ⟨row, hrow, hfile, hseq, hlabel⟩ := insertEAMRecord_ok env recordID detail storagePath
    caseID isInside md5Str sm3Str pageCount pdfSize illustration w hq hi
  refine ⟨row, _, hrow, hfile, hseq, hlabel, hspec.1, hspec.2, ?_⟩
  intro hnone env2 recordID2 detail2 storagePath2 isInside2 md5Str2 sm3Str2 pageCount2 pdfSize2
    illustration2 hq2 hi2
  rw [hspec.1 hnone] at hseq
  have hseqs := caseSeqs_append w row caseID 1 hfile hseq
  rw [hnone, List.nil_append] at hseqs
  obtain ⟨row2, hrow2, -, hseq2, hlabel2⟩ := insertEAMRecord_ok env2 recordID2 detail2
    storagePath2 caseID isInside2 md5Str2 sm3Str2 pageCount2 pdfSize2 illustration2
    { w with eamRecord := w.eamRecord ++ [row] } hq2 hi2
  rw [hseqs] at hseq2 hlabel2
  exact ⟨row2, hrow2, hseq2, hlabel2⟩

/-- C8, witness: two inserts in a row for the case "c1", which has no
records. -/
theorem C8_sequence_assignment_witness :
    ∃ (row : EAMRecord) (seq : Int),
      insertEAMRecord (quietMerge "u1") "u1" detailC1 "00000" "c1" 1 "md5" "sm3" 3 100 []
        (worldOf oneImageFS)
        = (none, { worldOf oneImageFS with
            eamRecord := (worldOf oneImageFS).eamRecord ++ [row] }) ∧
      row.record_file = "c1" ∧ row.record_wj_xh = some seq ∧
      row.record_wjdh = detailC1.FileAjdh ++ "-" ++ fmtZeroPad 3 seq ∧
      (caseSeqs (worldOf oneImageFS) "c1" = [] → seq = 1) ∧
      (∀ m, m ∈ caseSeqs (worldOf oneImageFS) "c1" →
        (∀ x ∈ caseSeqs (worldOf oneImageFS) "c1", x ≤ m) → minInt ≤ m →
        m < maxInt → seq = m + 1) ∧
      (caseSeqs (worldOf oneImageFS) "c1" = [] →
        ∀ (env2 : MergeEnv) (recordID2 : String) (detail2 : CaseDetail) (storagePath2 : String)
          (isInside2 : Int) (md5Str2 sm3Str2 : String) (pageCount2 pdfSize2 : Int)
          (illustration2 : List String),
          env2.seqQueryFails = false → env2.insertFails = false →
          ∃ row2 : EAMRecord,
            insertEAMRecord env2 recordID2 detail2 storagePath2 "c1" isInside2 md5Str2 sm3Str2
              pageCount2 pdfSize2 illustration2
              { worldOf oneImageFS with eamRecord := (worldOf oneImageFS).eamRecord ++ [row] }
              = (none, { worldOf oneImageFS with
                  eamRecord := (worldOf oneImageFS).eamRecord ++ [row] ++ [row2] }) ∧
            row2.record_wj_xh = some 2 ∧
            row2.record_wjdh = detail2.FileAjdh ++ "-" ++ fmtZeroPad 3 2) :=
  C8_sequence_assignment (quietMerge "u1") "u1" detailC1 "00000" "c1" 1 "md5" "sm3" 3 100 []
    (worldOf oneImageFS) (by decide) (by decide)

/-- C8, counterexample: the case has a record with the largest machine integer
as sequence number; the inserted record gets the smallest machine integer,
not the largest plus 1. -/
theorem C8_counterexample :
    caseSeqs { worldOf oneImageFS with eamRecord := [lastSeqRecord] } "c1"
        = [9223372036854775807] ∧
      (insertEAMRecord (quietMerge "u1") "u1" detailC1 "00000" "c1" 1 "md5" "sm3" 3 100 []
        { worldOf oneImageFS with eamRecord := [lastSeqRecord] }).2.eamRecord.map
          (fun r => (r.record_wj_xh, r.record_wjdh))
        = [(some 9223372036854775807, "AJ1-9223372036854775807"),
           (some (-9223372036854775808), "AJ1--9223372036854775808")] := by
  decide

/-! ## C10: cleanup before rebuild -/

/-- C11, the code at the failing input: a name with the extension `.png`, in
any case, does not pass the extension test, which lets through `.jpg` and
`.jpeg` only; of a listing the non-directory JPG and JPEG names are collected
and sorted in ascending order; and for a folder whose only images are two PNG
files `mergeAndStorePDF` returns the empty-image-set error with count 0,
inserts no record and leaves the shard state as it was. -/
theorem C11_png_rejected :
    isImageName "page1.png" = false ∧ isImageName "PAGE2.PNG" = false ∧
      isImageName "a.jpg" = true ∧ isImageName "b.JPeG" = true ∧
      sortStrings (collectImages
          [("b.JPG", false), ("page1.png", false), ("a.jpeg", false), ("c.jpg", true)])
        = ["a.jpeg", "b.JPG"] ∧
      readDir pngOnlyFS ["jpg", "s1", "c1"]
        = .ok [("page1.png", false), ("PAGE2.PNG", false)] ∧
      imagesIn pngOnlyFS ["jpg", "s1", "c1"] = [] ∧
      (mergeAndStorePDF (cfgBound 2) (quietMerge "u1") "c1" detailC1 ["jpg", "s1", "c1"] 1
        (worldOf pngOnlyFS)).1 = (some (.noImages "c1" ["jpg", "s1", "c1"]), 0) ∧
      (mergeAndStorePDF (cfgBound 2) (quietMerge "u1") "c1" detailC1 ["jpg", "s1", "c1"] 1
        (worldOf pngOnlyFS)).2.eamRecord = [] ∧
      (mergeAndStorePDF (cfgBound 2) (quietMerge "u1") "c1" detailC1 ["jpg", "s1", "c1"] 1
        (worldOf pngOnlyFS)).2.globalState = ⟨"00000", 0⟩ := by
  decide

end Merge
